import Mathlib

/-!
Verification of the Substance2Remix synchronization engine (Python sources
`src/core.py`, `src/remix_api.py`, `src/async_utils.py`) against its
natural-language specification.

The Python code is shallowly embedded: strings are `List Char`, the file
system is an explicit `String/List Char → Bool` oracle, and HTTP traffic is
modelled by explicit outcome lists / oracles so that the number and targets
of issued requests are part of each function's result.  Paths are modelled
with POSIX semantics (`os.path` on a POSIX host): separator `/`, absolute
means "starts with `/`".
-/

namespace S2R

/-! ## Character and string helpers -/

/-- ASCII lower-casing of one character, as Python's `str.lower` acts on the
ASCII characters occurring in this code base. -/
def lowerChar (c : Char) : Char :=
  if 'A' ≤ c ∧ c ≤ 'Z' then Char.ofNat (c.toNat + 32) else c

/-- Lower-case an entire character list. -/
def lowerL (l : List Char) : List Char := l.map lowerChar

/-- `a.lower().endswith(b.lower())` on character lists. -/
def endsWithCI (suffix l : List Char) : Bool :=
  (lowerL suffix).isSuffixOf (lowerL l)

/-- `a.lower() == b.lower()` on character lists. -/
def eqCI (a b : List Char) : Bool := lowerL a = lowerL b

/-- Decimal digit test (`[0-9]` in the regexes). -/
def isDig (c : Char) : Bool := '0' ≤ c ∧ c ≤ '9'

/-- `[A-Z0-9]` test used by the definition-path regexes. -/
def isUpperAlnum (c : Char) : Bool := ('A' ≤ c ∧ c ≤ 'Z') ∨ isDig c

/-- `[a-zA-Z]` test (the `[a-z]` with `re.IGNORECASE` in
`_normalize_ingest_output_stem`). -/
def isAsciiLetter (c : Char) : Bool := ('a' ≤ c ∧ c ≤ 'z') ∨ ('A' ≤ c ∧ c ≤ 'Z')

/-- `s.replace('\\', '/')`, applied by the Python code before matching
prim paths. -/
def slashify (l : List Char) : List Char :=
  l.map (fun c => if c = '\\' then '/' else c)

/-! ## POSIX path model (`os.path` on a POSIX host) -/

/-- `os.path.isabs` (POSIX): the path starts with `/`. -/
def isAbsL (l : List Char) : Bool := l.head? = some '/'

/-- `posixpath.join a b` for two components: an absolute `b` discards `a`;
otherwise the parts are glued with a `/` unless `a` is empty or already ends
in `/`. -/
def joinL (a b : List Char) : List Char :=
  if isAbsL b then b
  else if a = [] then b
  else if a.getLast? = some '/' then a ++ b
  else a ++ '/' :: b

/-- Component step of `posixpath.normpath`: Python's loop over
`path.split('/')` building `new_comps`. -/
def normCompStep (initialSlashes : Bool) (acc : List (List Char)) (comp : List Char) :
    List (List Char) :=
  if comp = [] ∨ comp = ['.'] then acc
  else if comp ≠ ['.', '.'] ∨ (¬ initialSlashes ∧ acc = []) ∨
      (acc ≠ [] ∧ acc.getLast? = some ['.', '.']) then
    acc ++ [comp]
  else if acc ≠ [] then acc.dropLast
  else acc

/-- `posixpath.normpath`. Collapses `//`, `.` and `..` components; the POSIX
double-initial-slash special case is kept. -/
def normpathL (p : List Char) : List Char :=
  if p = [] then ['.']
  else
    let initialSlashes : Nat :=
      if isAbsL p then
        if ['/', '/'].isPrefixOf p ∧ ¬ ['/', '/', '/'].isPrefixOf p then 2 else 1
      else 0
    let comps := p.splitOn '/'
    let newComps := comps.foldl (normCompStep (initialSlashes ≠ 0)) []
    let body := (newComps.intersperse ['/']).flatten
    let out := List.replicate initialSlashes '/' ++ body
    if out = [] then ['.'] else out

/-- `os.path.abspath` relative to an explicit working directory:
`normpath(join(cwd, p))` (a no-op join when `p` is already absolute). -/
def abspathL (cwd p : List Char) : List Char := normpathL (joinL cwd p)

/-- `posixpath.dirname`: everything up to the final `/`, with trailing
slashes stripped unless the head is all slashes. -/
def dirnameL (p : List Char) : List Char :=
  match (p.reverse.findIdx? (· = '/')) with
  | none => []
  | some i =>
    let head := p.take (p.length - i)
    if head ≠ [] ∧ ¬ head.all (· = '/') then
      (head.reverse.dropWhile (· = '/')).reverse
    else head

/-- `ntpath.basename` for the drive-free paths this plugin handles: the part
after the last `/` or `\\`. -/
def ntBasenameL (p : List Char) : List Char :=
  (p.reverse.takeWhile (fun c => c ≠ '/' ∧ c ≠ '\\')).reverse

/-- `os.path.splitext`: splits off the extension at the last dot, provided
that dot sits after the last separator and after at least one non-dot
character of the final component. Returns `(root, ext)`. -/
def splitextL (p : List Char) : List Char × List Char :=
  match p.reverse.findIdx? (· = '.') with
  | none => (p, [])
  | some ri =>
    let d := p.length - 1 - ri
    let sepIdx := (p.take d).reverse.findIdx? (· = '/')
    let filenameStart : Nat :=
      match sepIdx with
      | none => 0
      | some si => d - si
    if (List.range (d - filenameStart)).any
        (fun j => p.get? (filenameStart + j) ≠ some '.') then
      (p.take d, p.drop d)
    else (p, [])

/-! ## C1 — retrying HTTP request loops

`make_remix_request_with_retries` (src/core.py lines 488-633) and
`RemixAPIClient.make_request` (src/remix_api.py lines 69-116) both loop
`for attempt in range(1, retries + 1)` around one `requests.request` call.
We model the environment by the list of outcomes the network would hand to
the successive attempts (its length is the retry budget) and return how
many attempts were actually issued together with the final `ApiResult`. -/

/-- What a single HTTP attempt can come back with. -/
inductive AttemptOutcome
  | response (status : Nat)
  | timeout
  | connError
  | reqExc
deriving DecidableEq, Repr

/-- The `{success, status_code}` core of the dict both request helpers
return (`data`/`error` omitted: no claim depends on them). -/
structure ApiResult where
  success : Bool
  statusCode : Nat
deriving DecidableEq, Repr

/-- `make_remix_request_with_retries` (src/core.py): 2xx returns success at
once; ANY 4xx returns failure at once ("Client error (4xx), not retrying",
no 429 exception in the code); 5xx/other statuses and request exceptions
fall through to the next attempt; an exhausted budget yields
`{success: False, status_code: 0}`. First component: attempts issued. -/
def coreRetryRun : List AttemptOutcome → Nat × ApiResult
  | [] => (0, ⟨false, 0⟩)
  | .response s :: rest =>
    if 200 ≤ s ∧ s < 300 then (1, ⟨true, s⟩)
    else if 400 ≤ s ∧ s < 500 then (1, ⟨false, s⟩)
    else
      match rest with
      | [] => (1, ⟨false, 0⟩)
      | r :: rs => ((coreRetryRun (r :: rs)).1 + 1, (coreRetryRun (r :: rs)).2)
  | _ :: rest =>
    match rest with
    | [] => (1, ⟨false, 0⟩)
    | r :: rs => ((coreRetryRun (r :: rs)).1 + 1, (coreRetryRun (r :: rs)).2)

/-- `RemixAPIClient.make_request` (src/remix_api.py): 2xx returns success at
once; every other outcome — any non-2xx status included — merely records the
error and proceeds to the next attempt; an exhausted budget yields
`{success: False, status_code: 0}`. First component: attempts issued. -/
def clientRetryRun : List AttemptOutcome → Nat × ApiResult
  | [] => (0, ⟨false, 0⟩)
  | .response s :: rest =>
    if 200 ≤ s ∧ s < 300 then (1, ⟨true, s⟩)
    else
      match rest with
      | [] => (1, ⟨false, 0⟩)
      | r :: rs => ((clientRetryRun (r :: rs)).1 + 1, (clientRetryRun (r :: rs)).2)
  | _ :: rest =>
    match rest with
    | [] => (1, ⟨false, 0⟩)
    | r :: rs => ((clientRetryRun (r :: rs)).1 + 1, (clientRetryRun (r :: rs)).2)

/-! ## C6 — definition-path derivation (`_extract_definition_path`)

Both src/core.py (lines 725-744) and src/remix_api.py (lines 168-178) derive
a mesh definition path with `re.match` against the (backslash-normalised)
prim path.  An anchored `^(.*)REST$` regex with a greedy `(.*)` matches at
the LATEST position at which `REST` (through `$`) succeeds; `greedyScan`
reproduces this: it prefers a match strictly inside the tail over a match at
the current position.  (The prim paths handled contain no newline, so `.`
excluding `\n` is immaterial.) -/

/-- Greedy `^(.*)…$` scan: return `(pre, a)` where `pre` is the longest
prefix whose complementary suffix is accepted by `matchHere`. -/
def greedyScan {α : Type} (matchHere : List Char → Option α) :
    List Char → Option (List Char × α)
  | [] => (matchHere []).map (fun a => (([] : List Char), a))
  | c :: t =>
    match greedyScan matchHere t with
    | some (p, a) => some (c :: p, a)
    | none => (matchHere (c :: t)).map (fun a => (([] : List Char), a))

/-- Matches the end-anchored optional `(?:/.*)?$`: empty or starting `/`. -/
def optSlashEnd : List Char → Bool
  | [] => true
  | c :: _ => c = '/'

/-- The literal `/instances/inst_` of the instance regexes (length 16). -/
def instMarker : List Char := "/instances/inst_".data

/-- core.py's instance-pattern remainder `(?:_[0-9]+)?(?:/.*)?$` after the
16-character id: empty, a subpath, or `_<digits>` then empty/subpath (the
regex backtracking over `[0-9]+` is equivalent to maximal munch here). -/
def coreInstRestOk (r : List Char) : Bool :=
  optSlashEnd r ||
    (r.head? = some '_' && !(r.tail.takeWhile isDig).isEmpty &&
      optSlashEnd (r.tail.dropWhile isDig))

/-- Suffix acceptor for core.py's
`^(.*)/instances/inst_([A-Z0-9]{16})(?:_[0-9]+)?(?:/.*)?$`; yields the
16-character captured id. -/
def coreInstMatch (l : List Char) : Option (List Char) :=
  if instMarker.isPrefixOf l then
    let t := l.drop instMarker.length
    let id := t.take 16
    let r := t.drop 16
    if id.length = 16 ∧ id.all isUpperAlnum ∧ coreInstRestOk r then some id
    else none
  else none

/-- Shared acceptor for the mesh-definition patterns: after a separator
(`/meshes/`, `/mesh/`, `/Mesh/`, `/Geom/`) expect `mesh_<16 alnum>` and a
greedy optional `_[0-9]+` INSIDE the captured group, then `(?:/.*)?$`.
Yields the captured group minus the `(.*)` part. -/
def meshTail (sep l : List Char) : Option (List Char) :=
  if sep.isPrefixOf l then
    let t := l.drop sep.length
    if ("mesh_".data).isPrefixOf t then
      let u := t.drop ("mesh_".data).length
      let id := u.take 16
      let r := u.drop 16
      if id.length = 16 ∧ id.all isUpperAlnum then
        if r.head? = some '_' then
          if !(r.tail.takeWhile isDig).isEmpty &&
              optSlashEnd (r.tail.dropWhile isDig) then
            some (sep ++ "mesh_".data ++ id ++ '_' :: r.tail.takeWhile isDig)
          else none
        else if optSlashEnd r then some (sep ++ "mesh_".data ++ id) else none
      else none
    else none
  else none

/-- Suffix acceptor for core.py's second pattern
`^(.*\/meshes?\/mesh_[A-Z0-9]{16}(?:_[0-9]+)?)(?:\/.*)?$`.  Note `meshes?`
is the literal `meshe` plus an optional `s`, so the separator variants are
`/meshes/` and `/meshe/` (they cannot match at the same position). -/
def coreMeshMatch (l : List Char) : Option (List Char) :=
  (meshTail "/meshes/".data l).orElse (fun _ => meshTail "/meshe/".data l)

/-- `_extract_definition_path` of src/core.py: empty input gives `None`;
otherwise try the instance pattern (rebuilding
`{base}/meshes/mesh_{16-char hash}` WITHOUT any numeric suffix), then
the mesh-subpath pattern (returning captured group 1). -/
def coreExtractDefinitionPath (primPath : List Char) : Option (List Char) :=
  if primPath = [] then none
  else
    let p := slashify primPath
    match greedyScan coreInstMatch p with
    | some (base, id) => some (base ++ "/meshes/mesh_".data ++ id)
    | none =>
      match greedyScan coreMeshMatch p with
      | some (base, grp) => some (base ++ grp)
      | none => none

/-- Suffix acceptor for remix_api.py's
`^(.*)/instances/inst_([A-Z0-9]{16}(?:_[0-9]+)?)(?:_[0-9]+)?(?:/.*)?$`:
the captured id KEEPS the first numeric suffix (greedily matched by the
inner optional), and a second numeric suffix may follow outside it. -/
def remixInstMatch (l : List Char) : Option (List Char) :=
  if instMarker.isPrefixOf l then
    let t := l.drop instMarker.length
    let id := t.take 16
    let r := t.drop 16
    if id.length = 16 ∧ id.all isUpperAlnum then
      if r.head? = some '_' then
        if (r.tail.takeWhile isDig).isEmpty then none
        else if optSlashEnd (r.tail.dropWhile isDig) then
          some (id ++ '_' :: r.tail.takeWhile isDig)
        else if (r.tail.dropWhile isDig).head? = some '_' then
          if !((r.tail.dropWhile isDig).tail.takeWhile isDig).isEmpty &&
              optSlashEnd ((r.tail.dropWhile isDig).tail.dropWhile isDig) then
            some (id ++ '_' :: r.tail.takeWhile isDig)
          else none
        else none
      else if optSlashEnd r then some id else none
    else none
  else none

/-- Suffix acceptor for remix_api.py's second pattern
`^(.*(?:/meshes|/Mesh|/Geom)/mesh_[A-Z0-9]{16}(?:_[0-9]+)?)(?:/.*)?$`
(the three alternatives cannot match at the same position). -/
def remixMeshMatch (l : List Char) : Option (List Char) :=
  (meshTail "/meshes/".data l).orElse (fun _ =>
    (meshTail "/Mesh/".data l).orElse (fun _ => meshTail "/Geom/".data l))

/-- `RemixAPIClient._extract_definition_path` of src/remix_api.py. -/
def remixExtractDefinitionPath (primPath : List Char) : Option (List Char) :=
  if primPath = [] then none
  else
    let p := slashify primPath
    match greedyScan remixInstMatch p with
    | some (base, idPart) => some (base ++ "/meshes/mesh_".data ++ idPart)
    | none =>
      match greedyScan remixMeshMatch p with
      | some (base, grp) => some (base ++ grp)
      | none => none

/-! ## C2 — pull-side selection classification, file-paths parsing and
relative mesh-path resolution (src/core.py `get_selected_remix_asset_details`,
`_get_mesh_file_path_from_prim`, `handle_pull_from_remix`) -/

/-- Python's `sub in s` substring test. -/
def isInfixL (sub l : List Char) : Bool := l.tails.any (fun t => sub.isPrefixOf t)

/-- The three prim roles accumulated by the classification loop of
`get_selected_remix_asset_details`. -/
structure Selection where
  material? : Option (List Char)
  mesh? : Option (List Char)
  shader? : Option (List Char)
deriving DecidableEq, Repr

/-- One iteration of the classification loop over the selected prim paths
(src/core.py lines 758-773), with Python's fall-through/`continue`
structure made explicit. -/
def classifyStep (st : Selection) (p : List Char) : Selection :=
  let pn := slashify p
  let st :=
    if ("/Shader".data).isSuffixOf pn ∧ st.shader? = none then
      { st with shader? := some pn }
    else st
  if ("/Shader".data).isSuffixOf pn ∧ st.material? = none then
    { st with material? := some (pn.take (pn.length - 7)) }
  else if (isInfixL "/Looks/".data pn ∨ isInfixL "/materials/".data pn ∨
        isInfixL "/Material/".data pn) ∧
      ¬ ("/Mesh".data).isSuffixOf pn ∧ ¬ isInfixL "/PreviewSurface".data pn ∧
      st.material? = none then
    { st with material? := some pn }
  else if isInfixL "/instances/inst_".data pn ∧
      (("/mesh".data).isSuffixOf pn ∨ ("/Mesh".data).isSuffixOf pn) then
    if st.mesh? = none then { st with mesh? := some pn } else st
  else if isInfixL "/meshes/".data pn ∨ isInfixL "/Mesh/".data pn ∨
      isInfixL "/Geom/".data pn then
    if st.mesh? = none then { st with mesh? := some pn } else st
  else st

/-- The whole classification pass over the remote selection list. -/
def classifySelection (paths : List (List Char)) : Selection :=
  paths.foldl classifyStep ⟨none, none, none⟩

/-- Mesh-file extensions recognised by `_get_mesh_file_path_from_prim`. -/
def meshExts : List (List Char) :=
  [".usd".data, ".usda".data, ".usdc".data, ".obj".data, ".fbx".data,
   ".gltf".data, ".glb".data]

/-- `any(f.lower().endswith(ext) for ext in [...])`. -/
def isMeshFile (f : List Char) : Bool :=
  meshExts.any (fun e => e.isSuffixOf (lowerL f))

/-- One entry of the `file-paths` response: the three JSON shapes the core
parser accepts (src/core.py lines 694-707). -/
inductive PathsEntry
  | pair (ctx : List Char) (files : List (List Char))
  | flat (files : List (List Char))
  | single (f : List Char)

/-- Context hint and file list extracted from one entry: for the
two-element shape an absolute first element is normalised into the context
hint; the other shapes start with no hint. -/
def entryFiles : PathsEntry → Option (List Char) × List (List Char)
  | .pair ctx files => (if isAbsL ctx then some (normpathL ctx) else none, files)
  | .flat files => (none, files)
  | .single f => (none, [f])

/-- Inner file loop of core's `_get_mesh_file_path_from_prim`: a first
absolute path (when no hint is present yet) becomes the context; the first
mesh-extension file stops the scan and is paired with the current context. -/
def scanFileList (temp : Option (List Char)) :
    List (List Char) → Option (List Char × Option (List Char))
  | [] => none
  | f :: fs =>
    let temp := if temp = none ∧ isAbsL f then some (normpathL f) else temp
    if isMeshFile f then some (slashify f, temp)
    else scanFileList temp fs

/-- Entry loop of core's `_get_mesh_file_path_from_prim`: first entry whose
file list contains a mesh file wins. Returns `(meshFilePath, context?)`. -/
def coreFindMeshFilePath : List PathsEntry → Option (List Char × Option (List Char))
  | [] => none
  | e :: es =>
    match scanFileList (entryFiles e).1 (entryFiles e).2 with
    | some r => some r
    | none => coreFindMeshFilePath es

/-- Order-preserving deduplication, as the
`[unique_possible_bases.append(b) for b in possible_bases if b not in
unique_possible_bases]` idiom in `handle_pull_from_remix`. -/
def dedupKeepFirst (l : List (List Char)) : List (List Char) :=
  l.foldl (fun acc b => if b ∈ acc then acc else acc ++ [b]) []

/-- Fallback search roots of `handle_pull_from_remix` Strategy 2, derived
from the Remix default output directory: `{root}/deps/captures`, project
root, project base, then the output directory itself, deduplicated. -/
def pullFallbackBases (outDir : List Char) : List (List Char) :=
  let base := if outDir ≠ [] then dirnameL outDir else []
  let root := if base ≠ [] then dirnameL base else []
  let l1 := if root ≠ [] then [joinL (joinL root "deps".data) "captures".data, root] else []
  let l2 := if base ≠ [] then [base] else []
  let l3 := if outDir ≠ [] then [outDir] else []
  dedupKeepFirst (l1 ++ l2 ++ l3)

/-- Relative mesh-path resolution of `handle_pull_from_remix` (src/core.py
lines 1218-1253): an absolute path is normalised and used; a relative one
is first joined against the directory of the absolute context path
(Strategy 1, kept only if the file exists), and otherwise joined against
each fallback base in turn (Strategy 2); `none` models the pull aborting
with an error (including the case where the Remix default output directory
query itself failed, `defaultOutDir = none`). -/
def resolveMeshPath (meshPath : List Char) (ctx : Option (List Char))
    (defaultOutDir : Option (List Char)) (isFile : List Char → Bool) :
    Option (List Char) :=
  if isAbsL meshPath then some (normpathL meshPath)
  else
    let viaCtx : Option (List Char) :=
      match ctx with
      | some c =>
        if isAbsL c then
          let p := normpathL (joinL (dirnameL c) meshPath)
          if isFile p then some p else none
        else none
      | none => none
    match viaCtx with
    | some p => some p
    | none =>
      match defaultOutDir with
      | none => none
      | some outDir =>
        ((pullFallbackBases outDir).find?
            (fun b => isFile (normpathL (joinL b meshPath)))).map
          (fun b => normpathL (joinL b meshPath))

/-! ## C3 — texture ingestion result handling
(`RemixAPIClient.ingest_texture`, src/remix_api.py lines 270-416, and
`ingest_texture_to_remix`, src/core.py lines 812-995) -/

/-- One `data_flows` record of the mass-validator response. -/
structure DataFlow where
  channel : List Char
  output_data : List (List Char)

/-- One plugin-result record (`context_plugin` or a `check_plugins` item). -/
structure PluginResult where
  name : List Char
  data_flows : List DataFlow

/-- One `completed_schemas` item. -/
structure CompletedSchema where
  context_plugin : PluginResult
  check_plugins : List PluginResult

/-- The response body of the ingest request: both keys optional, `none`
meaning the key is absent. -/
structure IngestResponse where
  completed_schemas : Option (List CompletedSchema)
  content : Option (List (List Char))

/-- remix_api.py output-path collection: every `ingestion_output` flow of
context plugin and check plugins of every schema, with the top-level
`content` list as fallback when that harvest is empty. -/
def collectOutputPaths (resp : IngestResponse) : List (List Char) :=
  let fromSchemas :=
    match resp.completed_schemas with
    | none => []
    | some schemas =>
      (schemas.map (fun sch =>
        ((sch.context_plugin :: sch.check_plugins).map (fun pr =>
          (pr.data_flows.map (fun fl =>
            if fl.channel = "ingestion_output".data then fl.output_data
            else [])).flatten)).flatten)).flatten
  if fromSchemas = [] then
    match resp.content with
    | some c => c
    | none => []
  else fromSchemas

/-- `.lower().endswith((".dds", ".rtex.dds"))`. -/
def isDdsPath (p : List Char) : Bool :=
  (".dds".data).isSuffixOf (lowerL p) || (".rtex.dds".data).isSuffixOf (lowerL p)

/-- Stem of the ingest INPUT file: basename without extension, minus a
trailing `.rtex` marker (src/remix_api.py lines 334-335). -/
def originalBaseOf (p : List Char) : List Char :=
  let b := (splitextL (ntBasenameL p)).1
  if (".rtex".data).isSuffixOf (lowerL b) then (splitextL b).1 else b

/-- `_normalize_ingest_output_stem`: strip `.dds`, then a `.rtex` marker,
then split off an optional trailing `.X` single-letter channel suffix
(lower-cased). -/
def normalizeIngestOutputStem (p : List Char) : List Char × Option Char :=
  let b0 := (splitextL (ntBasenameL p)).1
  let b := if (".rtex".data).isSuffixOf (lowerL b0) then (splitextL b0).1 else b0
  match b.reverse with
  | c :: '.' :: restRev =>
    if isAsciiLetter c then (restRev.reverse, some (lowerChar c)) else (b, none)
  | _ => (b, none)

/-- Expected channel-suffix letter per PBR type (src/remix_api.py lines
372-381). -/
def expectedSuffix (pbr : List Char) : Option Char :=
  let t := lowerL pbr
  if t = "albedo".data then some 'a'
  else if t = "normal".data then some 'n'
  else if t = "roughness".data then some 'r'
  else if t = "metallic".data then some 'm'
  else if t = "height".data then some 'h'
  else if t = "emissive".data then some 'e'
  else if t = "ao".data then some 'o'
  else if t = "opacity".data then some 'o'
  else none

/-- Selection loop over the collected output paths (src/remix_api.py lines
386-409): `.dds` paths whose stripped stem equals the input stem
(case-insensitively); a path carrying the expected channel suffix wins
immediately, otherwise the first stem-matching path is kept as fallback. -/
def selectIngestedPath (expected : Option Char) (originalBase : List Char) :
    List (List Char) → Option (List Char) → Option (List Char)
  | [], fallback => fallback
  | p :: ps, fallback =>
    if ¬ isDdsPath p then selectIngestedPath expected originalBase ps fallback
    else if ¬ eqCI (normalizeIngestOutputStem p).1 originalBase then
      selectIngestedPath expected originalBase ps fallback
    else
      match expected with
      | some e =>
        if (normalizeIngestOutputStem p).2 = some e then some p
        else selectIngestedPath expected originalBase ps
          (fallback.orElse (fun _ => some p))
      | none => some p

/-- Final-path normalisation of `ingest_texture`: a relative response path
is joined against the target ingest directory. -/
def resolveIngestOutput (targetDir p : List Char) : List Char :=
  if isAbsL p then normpathL p else normpathL (joinL targetDir p)

/-- Result-handling tail of `RemixAPIClient.ingest_texture` on a successful
API response: pick an output path, resolve it against the target ingest
directory, and fail unless the resolved file exists on disk. -/
def ingestTexture (pbr inputFile targetDir : List Char) (resp : IngestResponse)
    (isFile : List Char → Bool) : Option (List Char) :=
  match selectIngestedPath (expectedSuffix pbr) (originalBaseOf inputFile)
      (collectOutputPaths resp) none with
  | none => none
  | some p =>
    if isFile (resolveIngestOutput targetDir p) then
      some (resolveIngestOutput targetDir p)
    else none

/-- Output-path search of core.py's `ingest_texture_to_remix`: first
`.dds`/`.rtex.dds` string in the `ConvertToDDS` check plugins'
`ingestion_output` flows, falling back to the top-level `content` list. -/
def coreIngestFindPath (resp : IngestResponse) : Option (List Char) :=
  let fromSchemas :=
    match resp.completed_schemas with
    | none => none
    | some schemas =>
      schemas.findSome? (fun sch =>
        sch.check_plugins.findSome? (fun pr =>
          if pr.name = "ConvertToDDS".data then
            pr.data_flows.findSome? (fun fl =>
              if fl.channel = "ingestion_output".data then
                fl.output_data.find? isDdsPath
              else none)
          else none))
  match fromSchemas with
  | some p => some p
  | none =>
    match resp.content with
    | some c => c.find? isDdsPath
    | none => none

/-- Result-handling tail of core.py's `ingest_texture_to_remix` on a
successful API response: the found path is normalised (joined against the
output directory when relative) and returned as-is — no stem comparison
with the input file and no on-disk existence check occur. -/
def coreIngestTextureResult (outputDir : List Char) (resp : IngestResponse) :
    Option (List Char) :=
  (coreIngestFindPath resp).map (fun p => resolveIngestOutput outputDir p)

/-! ## C4 / C10 — batch texture update
(`RemixAPIClient.update_textures_batch`, src/remix_api.py lines 445-466, and
`update_remix_textures_batch`, src/core.py lines 1096-1178).

The PUT request is modelled by an oracle from the payload actually sent to
the reported success; the second result component records the payload of
the issued request, `none` when no request was issued at all. -/

/-- Binding validity in remix_api.py:
`not ingested_path or not os.path.isabs(ingested_path)` rejects. -/
def bindingValid (b : List Char × List Char) : Bool := b.2 ≠ [] ∧ isAbsL b.2

/-- Payload entry construction shared by both implementations: attribute
backslashes normalised, path separators already forward slashes on POSIX. -/
def payloadEntry (b : List Char × List Char) : List Char × List Char :=
  (slashify b.1, b.2)

/-- `RemixAPIClient.update_textures_batch`: empty list short-circuits to
success; non-absolute paths are collected as errors and skipped; an empty
valid payload returns failure without a request; otherwise one PUT is
issued and its outcome is the outcome of the call. -/
def clientUpdateTexturesBatch (bindings : List (List Char × List Char))
    (put : List (List Char × List Char) → Bool) :
    Bool × Option (List (List Char × List Char)) :=
  if bindings = [] then (true, none)
  else
    let payload := bindings.filterMap
      (fun b => if bindingValid b then some (payloadEntry b) else none)
    if payload = [] then (false, none)
    else (put payload, some payload)

/-- core.py's `update_remix_textures_batch`: same structure, with an extra
early failure when the project output directory argument is empty (its
validity predicate is plain `os.path.isabs`, equal to `bindingValid`
because `isabs("")` is false). -/
def coreUpdateTexturesBatch (bindings : List (List Char × List Char))
    (projectOutputDir : List Char)
    (put : List (List Char × List Char) → Bool) :
    Bool × Option (List (List Char × List Char)) :=
  if bindings = [] then (true, none)
  else if projectOutputDir = [] then (false, none)
  else
    let payload := bindings.filterMap
      (fun b => if isAbsL b.2 then some (payloadEntry b) else none)
    if payload = [] then (false, none)
    else (put payload, some payload)

/-! ## C5 — dynamic attribute mapping of `handle_push_to_remix`
(src/core.py lines 1987-2043) -/

/-- The `pbr_suffix_preferences` table (src/core.py lines 1990-1998). -/
def pbrSuffixPreferences (pbr : List Char) : List (List Char) :=
  if pbr = "albedo".data then
    ["diffuse_texture".data, "albedo_texture".data, "basecolor_texture".data]
  else if pbr = "normal".data then
    ["normalmap_texture".data, "normal_texture".data]
  else if pbr = "height".data then
    ["height_texture".data, "heightmap_texture".data, "displacement_texture".data]
  else if pbr = "roughness".data then
    ["reflectionroughness_texture".data, "roughness_texture".data]
  else if pbr = "metallic".data then
    ["metallic_texture".data, "metalness_texture".data]
  else if pbr = "emissive".data then
    ["emissive_mask_texture".data, "emissive_texture".data]
  else if pbr = "opacity".data then
    ["opacity_texture".data, "opacity_mask".data]
  else []

/-- `attr_path.lower().endswith(":" + suffix.lower())`. -/
def attrMatchesSuffix (suf attr : List Char) : Bool := endsWithCI (':' :: suf) attr

/-- The two nested matching loops for one PBR type: per preference suffix,
the first existing binding whose attribute matches it and is not yet
claimed by an earlier PBR type of this run. -/
def selectAttrForType (claimed : List (List Char))
    (bindings : List (List Char × List Char)) :
    List (List Char) → Option (List Char)
  | [] => none
  | suf :: sufs =>
    match bindings.find?
        (fun b => attrMatchesSuffix suf b.1 && !(decide (b.1 ∈ claimed))) with
    | some b => some b.1
    | none => selectAttrForType claimed bindings sufs

/-- All attribute paths matching some preference suffix, listed in
suffix-preference order and, per suffix, in material-binding order — the
exact visitation order of the two nested loops. -/
def candidateAttrs (bindings : List (List Char × List Char))
    (prefs : List (List Char)) : List (List Char) :=
  (prefs.map (fun suf =>
    (bindings.filter (fun b => attrMatchesSuffix suf b.1)).map Prod.fst)).flatten

/-- Accumulated state of the mapping loop: `actual_material_attributes`
(in insertion order), `found_attributes_set`, `unmappable_pbr_types`. -/
structure MappingState where
  mapping : List (List Char × List Char)
  claimed : List (List Char)
  unmappable : List (List Char)
deriving Repr

/-- One iteration of `for pbr_type in ingested_paths_map_absolute.keys()`. -/
def mapStep (bindings : List (List Char × List Char)) (st : MappingState)
    (pbr : List Char) : MappingState :=
  if pbrSuffixPreferences pbr = [] then
    { st with unmappable := st.unmappable ++ [pbr] }
  else
    match selectAttrForType st.claimed bindings (pbrSuffixPreferences pbr) with
    | some a =>
      { st with mapping := st.mapping ++ [(pbr, a)], claimed := st.claimed ++ [a] }
    | none => { st with unmappable := st.unmappable ++ [pbr] }

/-- The whole dynamic attribute-mapping loop of one push run. -/
def runAttributeMapping (ingestedTypes : List (List Char))
    (bindings : List (List Char × List Char)) : MappingState :=
  ingestedTypes.foldl (mapStep bindings) ⟨[], [], []⟩

/-! ## C7 — commit + layer-save tail of `handle_push_to_remix`
(src/core.py lines 2063-2131) -/

/-- Error tags of the commit/save stages, standing for the strings appended
to `update_errors` / `save_errors`. -/
inductive PushErr
  | updatePrep (pbr : List Char)
  | updateBatch
  | updateBatchWarning
  | saveGetTarget
  | saveRequest
deriving DecidableEq, Repr

/-- Projection of the run after the commit and save stages. -/
structure PushCommitSaveResult where
  committedTypes : List (List Char)
  payload : List (List Char × List Char)
  saveAttempted : Bool
  savePosted : Option (List Char)
  errors : List PushErr
deriving Repr

/-- `dict.get`-style lookup in the ingested-paths association list. -/
def lookupIngested (ingested : List (List Char × List Char)) (p : List Char) :
    Option (List Char) :=
  (ingested.find? (fun e => e.1 = p)).map Prod.snd

/-- The save stage (src/core.py lines 2114-2131): runs only when
`successfully_updated_types` is non-empty; queries the current edit target
(`editTarget = none` models that query failing) and posts a save for the
returned layer; failures are turned into error tags. -/
def saveStage (committed : List (List Char)) (editTarget : Option (List Char))
    (saveOk : List Char → Bool) : Bool × Option (List Char) × List PushErr :=
  if committed ≠ [] then
    match editTarget with
    | none => (true, none, [.saveGetTarget])
    | some layer =>
      if saveOk layer then (true, some layer, [])
      else (true, some layer, [.saveRequest])
  else (false, none, [])

/-- The commit stage of a push run (src/core.py lines 2063-2110): payload
preparation pairing each discovered attribute with its ingested path, the
guarded batch call, and the `successfully_updated_types` extension that
happens only on batch success.  Returns
`(successfully_updated_types, payload, update_errors)` — no save-stage
input is consulted. -/
def commitStage (actualAttrs ingested : List (List Char × List Char))
    (dirOk batchOk batchWarn : Bool) :
    List (List Char) × List (List Char × List Char) × List PushErr :=
  if actualAttrs ≠ [] ∧ ingested ≠ [] then
    let payload := actualAttrs.filterMap
      (fun pa => (lookupIngested ingested pa.1).map (fun path => (pa.2, path)))
    let prepErrs : List PushErr := actualAttrs.filterMap
      (fun pa => if lookupIngested ingested pa.1 = none then
        some (.updatePrep pa.1) else none)
    if payload ≠ [] then
      if ¬ dirOk then ([], payload, prepErrs ++ [PushErr.updateBatch])
      else if batchOk then
        ((actualAttrs.filter (fun pa => lookupIngested ingested pa.1 ≠ none)).map
            Prod.fst,
          payload,
          prepErrs ++ (if batchWarn then [PushErr.updateBatchWarning] else []))
      else ([], payload, prepErrs ++ [PushErr.updateBatch])
    else ([], payload, prepErrs)
  else ([], [], [])

/-- Commit + save tail of a push run.  `actualAttrs` is the discovered
pbr→attribute mapping, `ingested` the pbr→ingested-path map, `dirOk` the
`os.path.isdir(project_output_dir_abs)` check, `batchOk` the outcome of the
batch PUT, `batchWarn` whether its success message carried path-processing
warnings.  `committedTypes` is `successfully_updated_types`, extended only
on batch success; the error list is `update_errors ++ save_errors`, in the
order `all_errors` accumulates them. -/
def pushCommitSave (actualAttrs ingested : List (List Char × List Char))
    (dirOk batchOk batchWarn : Bool) (editTarget : Option (List Char))
    (saveOk : List Char → Bool) : PushCommitSaveResult :=
  let c := commitStage actualAttrs ingested dirOk batchOk batchWarn
  let sv := saveStage c.1 editTarget saveOk
  { committedTypes := c.1, payload := c.2.1,
    saveAttempted := sv.1, savePosted := sv.2.1,
    errors := c.2.2 ++ sv.2.2 }

/-! ## C8 — worker task execution (`Worker.run`, src/async_utils.py
lines 35-59) -/

/-- The signals a worker handle can emit. -/
inductive WorkerEvent (α ε : Type)
  | progress (percent : Int)
  | status (text : List Char)
  | result (v : α)
  | error (e : ε)
  | finished

/-- Events the injected `progress_callback` / `status_callback` can emit
while the wrapped function is still running. -/
inductive MidEvent
  | progress (percent : Int)
  | status (text : List Char)

/-- A wrapped function either returns a value or raises. -/
inductive FnOutcome (α ε : Type)
  | ok (v : α)
  | exc (e : ε)

/-- Embed a mid-run callback emission into the handle's event stream. -/
def MidEvent.toEvent {α ε : Type} : MidEvent → WorkerEvent α ε
  | .progress n => .progress n
  | .status t => .status t

/-- Signal trace of one `Worker.run` execution: whatever the callbacks
emitted while `fn` ran, then `try/except/else/finally` emits `result` on
return and `error` on exception, and `finished` in the `finally` block;
no exception escapes `run`. -/
def workerRun {α ε : Type} (mid : List MidEvent) (outcome : FnOutcome α ε) :
    List (WorkerEvent α ε) :=
  (mid.map MidEvent.toEvent) ++
    (match outcome with
     | .ok v => [.result v, .finished]
     | .exc e => [.error e, .finished])

/-- Terminal-signal test (`result` or `error`). -/
def WorkerEvent.isTerminal {α ε : Type} : WorkerEvent α ε → Bool
  | .result _ => true
  | .error _ => true
  | _ => false

/-- `finished` test. -/
def WorkerEvent.isFinished {α ε : Type} : WorkerEvent α ε → Bool
  | .finished => true
  | _ => false

/-! ## C9 — `RemixAPIClient.save_layer` (src/remix_api.py lines 432-443) -/

/-- `save_layer`: rejects an empty argument; otherwise re-queries the
current edit target (`editTarget = none` models that query failing, in
which case no save request is issued) and posts the save request for the
QUERIED layer — the argument is never used past the emptiness check.
Result: (ok, list of layers a save was posted for). -/
def clientSaveLayer (arg : List Char) (editTarget : Option (List Char))
    (saveOk : List Char → Bool) : Bool × List (List Char) :=
  if arg = [] then (false, [])
  else
    match editTarget with
    | none => (false, [])
    | some layer => (saveOk layer, [layer])

/-! ## Helper lemmas -/

/-- Every run with a non-empty attempt budget issues at least one attempt. -/
theorem clientRetryRun_pos (o : AttemptOutcome) (rest : List AttemptOutcome) :
    1 ≤ (clientRetryRun (o :: rest)).1 := by
  cases o <;> cases rest <;> simp [clientRetryRun] <;> split <;> simp

/-- Callback-driven mid-run emissions are neither terminal nor `finished`. -/
theorem midEvents_counts {α ε : Type} (mid : List MidEvent) :
    ((mid.map (@MidEvent.toEvent α ε)).countP WorkerEvent.isTerminal = 0) ∧
    ((mid.map (@MidEvent.toEvent α ε)).countP WorkerEvent.isFinished = 0) := by
  induction mid with
  | nil => simp
  | cons m ms ih =>
    cases m <;>
      simp [List.countP_cons, MidEvent.toEvent, WorkerEvent.isTerminal,
        WorkerEvent.isFinished, ih.1, ih.2]

/-! ## C8 — worker signal protocol -/

/-- C8: one `Worker.run` execution emits exactly one of `result`/`error`,
emits `finished` exactly once, and `finished` comes last; the trace is a
total function of the wrapped function's outcome, so no exception escapes
`run`. -/
theorem worker_run_signal_protocol {α ε : Type} (mid : List MidEvent)
    (o : FnOutcome α ε) :
    ((workerRun mid o).countP WorkerEvent.isTerminal = 1) ∧
    ((workerRun mid o).countP WorkerEvent.isFinished = 1) ∧
    (workerRun mid o).getLast? = some WorkerEvent.finished := by
  have h := midEvents_counts (α := α) (ε := ε) mid
  refine ⟨?_, ?_, ?_⟩
  · cases o <;>
      simp [workerRun, List.countP_append, h.1, List.countP_cons,
        WorkerEvent.isTerminal]
  · cases o <;>
      simp [workerRun, List.countP_append, h.2, List.countP_cons,
        WorkerEvent.isFinished]
  · cases o <;> simp [workerRun]

/-! ## C9 — `save_layer` targets the queried edit layer -/

/-- C9: for any non-empty layer argument, `save_layer` behaves identically
whatever the argument is; when the edit-target query fails it returns
failure having posted no save request; when the query returns a layer, the
single save request posted targets THAT layer, not the argument. -/
theorem save_layer_uses_current_edit_target (arg1 arg2 : List Char)
    (et : Option (List Char)) (saveOk : List Char → Bool)
    (h1 : arg1 ≠ []) (h2 : arg2 ≠ []) :
    clientSaveLayer arg1 et saveOk = clientSaveLayer arg2 et saveOk ∧
    (et = none → clientSaveLayer arg1 et saveOk = (false, [])) ∧
    (∀ layer, et = some layer →
      clientSaveLayer arg1 et saveOk = (saveOk layer, [layer])) := by
  cases et <;> simp [clientSaveLayer, h1, h2]

/-- Witness for C9 at a concrete argument, edit target and save oracle. -/
theorem save_layer_uses_current_edit_target_witness :
    clientSaveLayer "/ignored.usda".data (some "/proj/mod.usda".data)
        (fun _ => true) = (true, ["/proj/mod.usda".data]) := by
  exact (save_layer_uses_current_edit_target "/ignored.usda".data
    "/other.usda".data (some "/proj/mod.usda".data) (fun _ => true)
    (by decide) (by decide)).2.2 "/proj/mod.usda".data rfl

/-! ## C10 — empty batch commit versus all-invalid batch commit -/

/-- C10: an empty bindings list makes both batch-update implementations
return success without issuing any request, whereas a non-empty list in
which no binding has an absolute path returns failure, equally without a
request — so the `ok` flag alone separates the two cases, and an empty
commit reports like a successful one. -/
theorem batch_update_empty_vs_all_invalid :
    (∀ put, clientUpdateTexturesBatch [] put = (true, none)) ∧
    (∀ dir put, coreUpdateTexturesBatch [] dir put = (true, none)) ∧
    (∀ bindings put, bindings ≠ [] →
      (∀ b ∈ bindings, bindingValid b = false) →
      clientUpdateTexturesBatch bindings put = (false, none)) ∧
    (∀ bindings dir put, bindings ≠ [] → dir ≠ [] →
      (∀ b ∈ bindings, isAbsL b.2 = false) →
      coreUpdateTexturesBatch bindings dir put = (false, none)) := by
  refine ⟨fun put => by simp [clientUpdateTexturesBatch],
    fun dir put => by simp [coreUpdateTexturesBatch], ?_, ?_⟩
  · intro bindings put hne hall
    have hnil : bindings.filterMap
        (fun b => if bindingValid b then some (payloadEntry b) else none) = [] := by
      rw [List.filterMap_eq_nil_iff]
      intro b hb
      simp [hall b hb]
    simp [clientUpdateTexturesBatch, hne, hnil]
  · intro bindings dir put hne hdir hall
    have hnil : bindings.filterMap
        (fun b => if isAbsL b.2 then some (payloadEntry b) else none) = [] := by
      rw [List.filterMap_eq_nil_iff]
      intro b hb
      simp [hall b hb]
    simp [coreUpdateTexturesBatch, hne, hdir, hnil]

/-- Witness for C10: the empty commit and a concrete all-relative commit. -/
theorem batch_update_empty_vs_all_invalid_witness :
    clientUpdateTexturesBatch [] (fun _ => false) = (true, none) ∧
    clientUpdateTexturesBatch
        [("/mat/Shader.inputs:diffuse_texture".data, "rel/t.dds".data)]
        (fun _ => true) = (false, none) ∧
    coreUpdateTexturesBatch
        [("/mat/Shader.inputs:diffuse_texture".data, "rel/t.dds".data)]
        "/proj/out".data (fun _ => true) = (false, none) := by
  refine ⟨batch_update_empty_vs_all_invalid.1 _, ?_, ?_⟩
  · exact batch_update_empty_vs_all_invalid.2.2.1 _ _ (by decide) (by decide)
  · exact batch_update_empty_vs_all_invalid.2.2.2 _ _ _ (by decide) (by decide)
      (by decide)

/-! ## C4 — local rejection of non-absolute bindings -/

/-- C4: in both batch-update implementations, every entry of an issued
request arises from a valid (absolute-path) input binding — invalid ones
are never sent; every valid binding IS part of the issued request, so
invalid ones do not block it; when at least one valid binding exists a
request is issued; and a non-empty input with no valid binding returns
`ok = false` with no request issued. -/
theorem batch_update_rejects_invalid_locally
    (bindings : List (List Char × List Char)) (dir : List Char)
    (put : List (List Char × List Char) → Bool) (hdir : dir ≠ []) :
    (∀ req, (clientUpdateTexturesBatch bindings put).2 = some req →
      (∀ e ∈ req, ∃ b ∈ bindings, bindingValid b = true ∧ e = payloadEntry b) ∧
      (∀ b ∈ bindings, bindingValid b = true → payloadEntry b ∈ req)) ∧
    ((∃ b ∈ bindings, bindingValid b = true) →
      ∃ req, (clientUpdateTexturesBatch bindings put).2 = some req) ∧
    (bindings ≠ [] → (∀ b ∈ bindings, bindingValid b = false) →
      clientUpdateTexturesBatch bindings put = (false, none)) ∧
    (∀ req, (coreUpdateTexturesBatch bindings dir put).2 = some req →
      (∀ e ∈ req, ∃ b ∈ bindings, isAbsL b.2 = true ∧ e = payloadEntry b) ∧
      (∀ b ∈ bindings, isAbsL b.2 = true → payloadEntry b ∈ req)) ∧
    ((∃ b ∈ bindings, isAbsL b.2 = true) →
      ∃ req, (coreUpdateTexturesBatch bindings dir put).2 = some req) := by
  refine ⟨?_, ?_, ?_, ?_, ?_⟩
  · intro req hreq
    have hne : bindings ≠ [] := by
      intro h; subst h; simp [clientUpdateTexturesBatch] at hreq
    by_cases hpay : bindings.filterMap
        (fun b => if bindingValid b then some (payloadEntry b) else none) = []
    · simp [clientUpdateTexturesBatch, hne, hpay] at hreq
    · simp only [clientUpdateTexturesBatch, if_neg hne, if_neg hpay] at hreq
      rcases hreq with ⟨hreq⟩
      constructor
      · intro e he
        rw [List.mem_filterMap] at he
        rcases he with ⟨b, hb, hsome⟩
        by_cases hv : bindingValid b = true
        · exact ⟨b, hb, hv, by simpa [hv] using hsome.symm⟩
        · simp [hv] at hsome
      · intro b hb hv
        rw [List.mem_filterMap]
        exact ⟨b, hb, by simp [hv]⟩
  · intro hex
    rcases hex with ⟨b, hb, hv⟩
    have hne : bindings ≠ [] := by
      intro h; subst h; simp at hb
    have hpay : bindings.filterMap
        (fun b => if bindingValid b then some (payloadEntry b) else none) ≠ [] := by
      rw [Ne, List.filterMap_eq_nil_iff]
      intro hall
      have := hall b hb
      simp [hv] at this
    simp [clientUpdateTexturesBatch, hne, hpay]
  · intro hne hall
    have hnil : bindings.filterMap
        (fun b => if bindingValid b then some (payloadEntry b) else none) = [] := by
      rw [List.filterMap_eq_nil_iff]
      intro b hb
      simp [hall b hb]
    simp [clientUpdateTexturesBatch, hne, hnil]
  · intro req hreq
    have hne : bindings ≠ [] := by
      intro h; subst h; simp [coreUpdateTexturesBatch] at hreq
    by_cases hpay : bindings.filterMap
        (fun b => if isAbsL b.2 then some (payloadEntry b) else none) = []
    · simp [coreUpdateTexturesBatch, hne, hdir, hpay] at hreq
    · simp only [coreUpdateTexturesBatch, if_neg hne, if_neg hdir, if_neg hpay]
        at hreq
      rcases hreq with ⟨hreq⟩
      constructor
      · intro e he
        rw [List.mem_filterMap] at he
        rcases he with ⟨b, hb, hsome⟩
        by_cases hv : isAbsL b.2 = true
        · exact ⟨b, hb, hv, by simpa [hv] using hsome.symm⟩
        · simp [hv] at hsome
      · intro b hb hv
        rw [List.mem_filterMap]
        exact ⟨b, hb, by simp [hv]⟩
  · intro hex
    rcases hex with ⟨b, hb, hv⟩
    have hne : bindings ≠ [] := by
      intro h; subst h; simp at hb
    have hpay : bindings.filterMap
        (fun b => if isAbsL b.2 then some (payloadEntry b) else none) ≠ [] := by
      rw [Ne, List.filterMap_eq_nil_iff]
      intro hall
      have := hall b hb
      simp [hv] at this
    simp [coreUpdateTexturesBatch, hne, hdir, hpay]

/-- Witness for C4: one valid and one invalid binding; the invalid one is
dropped, the valid one is sent, and an all-invalid list sends nothing. -/
theorem batch_update_rejects_invalid_locally_witness :
    (clientUpdateTexturesBatch
        [("/m/Shader.inputs:normalmap_texture".data, "rel.dds".data),
         ("/m/Shader.inputs:diffuse_texture".data, "/abs/t.dds".data)]
        (fun _ => true)).2 =
      some [("/m/Shader.inputs:diffuse_texture".data, "/abs/t.dds".data)] ∧
    ("/m/Shader.inputs:diffuse_texture".data, "/abs/t.dds".data) ∈
      [("/m/Shader.inputs:diffuse_texture".data, "/abs/t.dds".data)] := by
  have h := batch_update_rejects_invalid_locally
    [("/m/Shader.inputs:normalmap_texture".data, "rel.dds".data),
     ("/m/Shader.inputs:diffuse_texture".data, "/abs/t.dds".data)]
    "/proj/out".data (fun _ => true) (by decide)
  have hreq : (clientUpdateTexturesBatch
      [("/m/Shader.inputs:normalmap_texture".data, "rel.dds".data),
       ("/m/Shader.inputs:diffuse_texture".data, "/abs/t.dds".data)]
      (fun _ => true)).2 =
      some [("/m/Shader.inputs:diffuse_texture".data, "/abs/t.dds".data)] := by
    decide
  refine ⟨hreq, ?_⟩
  have hmem := (h.1 _ hreq).2
    ("/m/Shader.inputs:diffuse_texture".data, "/abs/t.dds".data)
    (by decide) (by decide)
  exact hmem

/-! ## C1 — retry behaviour on 4xx statuses -/

/-- C1 counterexample: a plain 404 (a 4xx other than 429) drives
`RemixAPIClient.make_request` through all three attempts of its default
budget instead of exactly one, and a 429 makes
`make_remix_request_with_retries` return failure after exactly one attempt
instead of being retried like a 5xx. -/
theorem retry_4xx_claim_counterexample :
    (clientRetryRun [.response 404, .response 404, .response 404]).1 = 3 ∧
    coreRetryRun [.response 429, .response 429, .response 429] =
      (1, ⟨false, 429⟩) := by
  decide

/-- C1 amended: `make_remix_request_with_retries` returns a failure carrying
the status after exactly one attempt for EVERY 4xx status, 429 included,
while `RemixAPIClient.make_request` retries every non-2xx response while
budget remains (so a 4xx consumes more than one attempt whenever the budget
allows). -/
theorem retry_4xx_amended (s : Nat) (rest : List AttemptOutcome)
    (h4 : 400 ≤ s) (h5 : s < 500) :
    coreRetryRun (.response s :: rest) = (1, ⟨false, s⟩) ∧
    (rest ≠ [] → 2 ≤ (clientRetryRun (.response s :: rest)).1) := by
  have hn2 : ¬ (200 ≤ s ∧ s < 300) := by omega
  have h45 : 400 ≤ s ∧ s < 500 := ⟨h4, h5⟩
  constructor
  · cases rest <;> simp [coreRetryRun, hn2, h45]
  · intro hrest
    rcases rest with _ | ⟨r, rs⟩
    · exact absurd rfl hrest
    · have hpos := clientRetryRun_pos r rs
      simp only [clientRetryRun, if_neg hn2]
      omega

/-- Witness for C1 amended at status 429 with one retry remaining. -/
theorem retry_4xx_amended_witness :
    coreRetryRun [.response 429, .response 500] = (1, ⟨false, 429⟩) ∧
    ([AttemptOutcome.response 500] ≠ [] →
      2 ≤ (clientRetryRun [.response 429, .response 500]).1) := by
  exact retry_4xx_amended 429 [.response 500] (by decide) (by decide)

/-! ## C7 — save step iff a binding was committed -/

/-- C7: the layer-save step of a push run executes exactly when at least
one texture binding was successfully submitted by the batch update; the
committed types and submitted payload do not depend on the save stage's
oracles (a failing save cannot undo them); and a failing save request
merely appends its error tag to the error list of the otherwise-identical
run whose save succeeds. -/
theorem push_save_step_protocol
    (actualAttrs ingested : List (List Char × List Char))
    (dirOk batchOk batchWarn : Bool) (et et' : Option (List Char))
    (sOk sOk' : List Char → Bool) :
    ((pushCommitSave actualAttrs ingested dirOk batchOk batchWarn et
        sOk).saveAttempted = true ↔
      (pushCommitSave actualAttrs ingested dirOk batchOk batchWarn et
        sOk).committedTypes ≠ []) ∧
    ((pushCommitSave actualAttrs ingested dirOk batchOk batchWarn et
        sOk).committedTypes =
      (pushCommitSave actualAttrs ingested dirOk batchOk batchWarn et'
        sOk').committedTypes) ∧
    ((pushCommitSave actualAttrs ingested dirOk batchOk batchWarn et
        sOk).payload =
      (pushCommitSave actualAttrs ingested dirOk batchOk batchWarn et'
        sOk').payload) ∧
    (∀ layer, et = some layer → sOk layer = false →
      (pushCommitSave actualAttrs ingested dirOk batchOk batchWarn et
        sOk).committedTypes ≠ [] →
      (pushCommitSave actualAttrs ingested dirOk batchOk batchWarn et
        sOk).errors =
        (pushCommitSave actualAttrs ingested dirOk batchOk batchWarn et
          (fun _ => true)).errors ++ [PushErr.saveRequest]) := by
  refine ⟨?_, rfl, rfl, ?_⟩
  · simp only [pushCommitSave]
    by_cases hc : (commitStage actualAttrs ingested dirOk batchOk batchWarn).1 = []
    · simp [saveStage, hc]
    · cases et with
      | none => simp [saveStage, hc]
      | some layer => by_cases hs : sOk layer <;> simp [saveStage, hc, hs]
  · intro layer hlayer hfail hne
    subst hlayer
    simp only [pushCommitSave] at hne ⊢
    simp [saveStage, hne, hfail]

/-- Witness for C7: a run with one committed albedo binding whose save
request fails. -/
theorem push_save_step_protocol_witness :
    (pushCommitSave [("albedo".data, "/m/Shader.inputs:diffuse_texture".data)]
        [("albedo".data, "/abs/a.dds".data)] true true false
        (some "/layer.usda".data) (fun _ => false)).errors =
      (pushCommitSave [("albedo".data, "/m/Shader.inputs:diffuse_texture".data)]
        [("albedo".data, "/abs/a.dds".data)] true true false
        (some "/layer.usda".data) (fun _ => true)).errors ++
        [PushErr.saveRequest] := by
  exact (push_save_step_protocol
    [("albedo".data, "/m/Shader.inputs:diffuse_texture".data)]
    [("albedo".data, "/abs/a.dds".data)] true true false
    (some "/layer.usda".data) (some "/layer.usda".data)
    (fun _ => false) (fun _ => false)).2.2.2 "/layer.usda".data rfl rfl
    (by decide)

/-! ## C5 — attribute mapping invariants -/

/-- `find?` distributes over append via `orElse`. -/
theorem find?_append_orElse {α : Type} (p : α → Bool) (l1 l2 : List α) :
    (l1 ++ l2).find? p = (l1.find? p).orElse (fun _ => l2.find? p) := by
  induction l1 with
  | nil => rfl
  | cons a as ih => by_cases h : p a <;> simp [List.find?_cons, h, ih]

/-- Searching the unclaimed attributes among the suffix-matching bindings
equals the inner loop's combined `find?`. -/
theorem find_attr_eq (claimed : List (List Char)) (suf : List Char)
    (bindings : List (List Char × List Char)) :
    ((bindings.filter (fun b => attrMatchesSuffix suf b.1)).map Prod.fst).find?
        (fun a => !(decide (a ∈ claimed))) =
      (bindings.find?
        (fun b => attrMatchesSuffix suf b.1 && !(decide (b.1 ∈ claimed)))).map
        Prod.fst := by
  induction bindings with
  | nil => rfl
  | cons b bs ih =>
    by_cases hm : attrMatchesSuffix suf b.1 <;>
      by_cases hc : b.1 ∈ claimed <;>
        simp [List.filter_cons, List.find?_cons, hm, hc, ih]

/-- The two nested loops select exactly the first candidate attribute, in
suffix-preference order (and binding order within one suffix), that is not
yet claimed. -/
theorem selectAttr_eq_first_unclaimed_candidate (claimed : List (List Char))
    (bindings : List (List Char × List Char)) (prefs : List (List Char)) :
    selectAttrForType claimed bindings prefs =
      (candidateAttrs bindings prefs).find? (fun a => !(decide (a ∈ claimed))) := by
  induction prefs with
  | nil => rfl
  | cons suf sufs ih =>
    have hcand : candidateAttrs bindings (suf :: sufs) =
        (bindings.filter (fun b => attrMatchesSuffix suf b.1)).map Prod.fst ++
          candidateAttrs bindings sufs := by
      simp [candidateAttrs]
    rw [hcand, find?_append_orElse, find_attr_eq]
    cases hsel : bindings.find?
        (fun b => attrMatchesSuffix suf b.1 && !(decide (b.1 ∈ claimed))) with
    | none => simp [selectAttrForType, hsel, ih]
    | some b => simp [selectAttrForType, hsel]

/-- Run invariant: the claimed set is exactly the attribute column of the
mapping, without duplicates. -/
def mappingInv (st : MappingState) : Prop :=
  st.claimed = st.mapping.map Prod.snd ∧ st.claimed.Nodup

/-- Which PBR types a state accounts for: mapped or reported unmappable. -/
def coveredBy (st : MappingState) (p : List Char) : Prop :=
  (∃ a, (p, a) ∈ st.mapping) ∨ p ∈ st.unmappable

/-- One mapping-loop iteration preserves the run invariant. -/
theorem mapStep_inv (bindings : List (List Char × List Char))
    (st : MappingState) (pbr : List Char) (h : mappingInv st) :
    mappingInv (mapStep bindings st pbr) := by
  unfold mapStep
  by_cases hp : pbrSuffixPreferences pbr = []
  · simpa [hp, mappingInv] using h
  · simp only [if_neg hp]
    cases hsel : selectAttrForType st.claimed bindings (pbrSuffixPreferences pbr) with
    | none => simpa [mappingInv] using h
    | some a =>
      have hfind := hsel
      rw [selectAttr_eq_first_unclaimed_candidate] at hfind
      have hpa := List.find?_some hfind
      have ha : a ∉ st.claimed := by simpa using hpa
      refine ⟨by simp [h.1], ?_⟩
      exact List.Nodup.append h.2 (List.nodup_singleton a)
        (by simpa [List.disjoint_singleton] using ha)

/-- One mapping-loop iteration covers its PBR type and keeps earlier
coverage. -/
theorem mapStep_covers (bindings : List (List Char × List Char))
    (st : MappingState) (pbr : List Char) :
    coveredBy (mapStep bindings st pbr) pbr ∧
      (∀ q, coveredBy st q → coveredBy (mapStep bindings st pbr) q) := by
  unfold mapStep coveredBy
  by_cases hp : pbrSuffixPreferences pbr = []
  · constructor
    · simp [hp]
    · intro q hq
      rcases hq with ⟨a, ha⟩ | hu
      · exact Or.inl ⟨a, by simp [hp, ha]⟩
      · exact Or.inr (by simp [hp, hu])
  · simp only [if_neg hp]
    cases hsel : selectAttrForType st.claimed bindings (pbrSuffixPreferences pbr) with
    | some a =>
      constructor
      · exact Or.inl ⟨a, by simp⟩
      · intro q hq
        rcases hq with ⟨b, hb⟩ | hu
        · exact Or.inl ⟨b, by simp [hb]⟩
        · exact Or.inr (by simp [hu])
    | none =>
      constructor
      · exact Or.inr (by simp)
      · intro q hq
        rcases hq with ⟨b, hb⟩ | hu
        · exact Or.inl ⟨b, by simp [hb]⟩
        · exact Or.inr (by simp [hu])

/-- The invariant holds after folding any list of PBR types. -/
theorem foldl_mapStep_inv (bindings : List (List Char × List Char)) :
    ∀ (types : List (List Char)) (st : MappingState), mappingInv st →
      mappingInv (types.foldl (mapStep bindings) st)
  | [], _, h => h
  | t :: ts, st, h =>
    foldl_mapStep_inv bindings ts (mapStep bindings st t)
      (mapStep_inv bindings st t h)

/-- Every processed PBR type is covered after folding. -/
theorem foldl_mapStep_covers (bindings : List (List Char × List Char)) :
    ∀ (types : List (List Char)) (st : MappingState) (p : List Char),
      p ∈ types ∨ coveredBy st p →
      coveredBy (types.foldl (mapStep bindings) st) p
  | [], _, _, h => by
    rcases h with h | h
    · simp at h
    · exact h
  | t :: ts, st, p, h => by
    rcases h with h | h
    · rcases List.mem_cons.mp h with hpt | hts
      · subst hpt
        exact foldl_mapStep_covers bindings ts (mapStep bindings st p) p
          (Or.inr (mapStep_covers bindings st p).1)
      · exact foldl_mapStep_covers bindings ts (mapStep bindings st t) p
          (Or.inl hts)
    · exact foldl_mapStep_covers bindings ts (mapStep bindings st t) p
        (Or.inr ((mapStep_covers bindings st t).2 p h))

/-- C5: within one attribute-discovery run no attribute path is assigned to
two different PBR types; the attribute selected for a type is precisely the
first candidate, in suffix-preference order, not already claimed in this
run; and every ingested PBR type ends up either mapped or reported in the
unmappable list — the run is never aborted by an unmatched type. -/
theorem attribute_mapping_run_properties (types : List (List Char))
    (bindings : List (List Char × List Char)) :
    (∀ p1 a1 p2 a2,
      (p1, a1) ∈ (runAttributeMapping types bindings).mapping →
      (p2, a2) ∈ (runAttributeMapping types bindings).mapping →
      a1 = a2 → p1 = p2) ∧
    (∀ claimed prefs, selectAttrForType claimed bindings prefs =
      (candidateAttrs bindings prefs).find?
        (fun a => !(decide (a ∈ claimed)))) ∧
    (∀ p, p ∈ types →
      (∃ a, (p, a) ∈ (runAttributeMapping types bindings).mapping) ∨
        p ∈ (runAttributeMapping types bindings).unmappable) := by
  refine ⟨?_, fun claimed prefs =>
    selectAttr_eq_first_unclaimed_candidate claimed bindings prefs,
    fun p hp => foldl_mapStep_covers bindings types ⟨[], [], []⟩ p (Or.inl hp)⟩
  have hinv : mappingInv (runAttributeMapping types bindings) :=
    foldl_mapStep_inv bindings types ⟨[], [], []⟩ ⟨rfl, List.nodup_nil⟩
  have hnodup : ((runAttributeMapping types bindings).mapping.map
      Prod.snd).Nodup := hinv.1 ▸ hinv.2
  intro p1 a1 p2 a2 h1 h2 heq
  have := List.inj_on_of_nodup_map hnodup h1 h2 (by simp [heq])
  exact congrArg Prod.fst this

/-- Witness for C5: two PBR types competing for overlapping attributes on a
concrete material; albedo claims the diffuse input first, so no sharing. -/
theorem attribute_mapping_run_properties_witness :
    (("albedo".data, "/m/Shader.inputs:diffuse_texture".data) ∈
        (runAttributeMapping ["albedo".data, "normal".data]
          [("/m/Shader.inputs:diffuse_texture".data, "/t/old_d.dds".data),
           ("/m/Shader.inputs:normalmap_texture".data, "/t/old_n.dds".data)]).mapping →
      ("normal".data, "/m/Shader.inputs:diffuse_texture".data) ∈
        (runAttributeMapping ["albedo".data, "normal".data]
          [("/m/Shader.inputs:diffuse_texture".data, "/t/old_d.dds".data),
           ("/m/Shader.inputs:normalmap_texture".data, "/t/old_n.dds".data)]).mapping →
      "albedo".data = "normal".data) ∧
    ((∃ a, ("height".data, a) ∈
        (runAttributeMapping ["height".data]
          [("/m/Shader.inputs:diffuse_texture".data, "/t/old_d.dds".data)]).mapping) ∨
      "height".data ∈
        (runAttributeMapping ["height".data]
          [("/m/Shader.inputs:diffuse_texture".data, "/t/old_d.dds".data)]).unmappable) := by
  constructor
  · intro h1 h2
    exact (attribute_mapping_run_properties ["albedo".data, "normal".data]
      [("/m/Shader.inputs:diffuse_texture".data, "/t/old_d.dds".data),
       ("/m/Shader.inputs:normalmap_texture".data, "/t/old_n.dds".data)]).1
      "albedo".data "/m/Shader.inputs:diffuse_texture".data
      "normal".data "/m/Shader.inputs:diffuse_texture".data h1 h2 rfl
  · exact (attribute_mapping_run_properties ["height".data]
      [("/m/Shader.inputs:diffuse_texture".data, "/t/old_d.dds".data)]).2.2
      "height".data (by simp)

/-! ## C3 — ingestion result: stem matching and on-disk existence -/

/-- Any path produced by the selection loop either satisfies the `.dds` and
stem-matching checks and comes from the scanned list, or was already the
incoming fallback. -/
theorem selectIngestedPath_spec (exp : Option Char) (base : List Char) :
    ∀ (l : List (List Char)) (fb : Option (List Char)) (r : List Char),
      selectIngestedPath exp base l fb = some r →
      (r ∈ l ∧ isDdsPath r = true ∧
        eqCI (normalizeIngestOutputStem r).1 base = true) ∨ fb = some r
  | [], _, _ => fun h => Or.inr h
  | p :: ps, fb, r => fun h => by
    by_cases hd : isDdsPath p
    · by_cases he : eqCI (normalizeIngestOutputStem p).1 base
      · rcases exp with _ | e
        · simp only [selectIngestedPath, hd, he, not_true, if_false,
            ite_false, ite_true, Bool.not_true, Option.some.injEq] at h
          subst h
          exact Or.inl ⟨List.mem_cons_self p ps, hd, he⟩
        · by_cases hs : (normalizeIngestOutputStem p).2 = some e
          · simp only [selectIngestedPath, hd, he, hs, not_true, if_false,
              ite_false, ite_true, if_true, Option.some.injEq] at h
            subst h
            exact Or.inl ⟨List.mem_cons_self p ps, hd, he⟩
          · simp only [selectIngestedPath, hd, he, hs, not_true, if_false,
              ite_false, ite_true, if_false] at h
            rcases selectIngestedPath_spec (some e) base ps
                (fb.orElse (fun _ => some p)) r h with hin | hfb
            · exact Or.inl ⟨List.mem_cons_of_mem p hin.1, hin.2⟩
            · rcases hfbv : fb with _ | q
              · rw [hfbv] at hfb
                have h3 : some p = some r := hfb
                rcases h3 with ⟨rfl⟩
                exact Or.inl ⟨List.mem_cons_self p ps, hd, he⟩
              · rw [hfbv] at hfb
                exact Or.inr hfb
      · simp only [selectIngestedPath, hd, he, not_false_iff, if_true,
          ite_true, not_true, ite_false] at h
        rcases selectIngestedPath_spec exp base ps fb r h with hin | hfb
        · exact Or.inl ⟨List.mem_cons_of_mem p hin.1, hin.2⟩
        · exact Or.inr hfb
    · simp only [selectIngestedPath, hd, not_false_iff, if_true, ite_true] at h
      rcases selectIngestedPath_spec exp base ps fb r h with hin | hfb
      · exact Or.inl ⟨List.mem_cons_of_mem p hin.1, hin.2⟩
      · exact Or.inr hfb

/-- C3 counterexample: (a) core.py's `ingest_texture_to_remix` handed a
response naming `bar.dds` for the input `foo.png` returns a path whose
stripped stem is `bar`, not `foo`, and does so without consulting the file
system at all (the embedding takes no existence oracle because the code
performs no check); (b) `RemixAPIClient.ingest_texture` for the input
`Foo.png` returns a path whose stripped stem is `foo`, which differs from
the input stem `Foo` — the stems agree only case-insensitively. -/
theorem ingest_stem_existence_counterexample :
    coreIngestTextureResult "/proj/assets/ingested/Textures".data
        ⟨none, some ["bar.dds".data]⟩ =
      some "/proj/assets/ingested/Textures/bar.dds".data ∧
    eqCI (normalizeIngestOutputStem "bar.dds".data).1
        (originalBaseOf "foo.png".data) = false ∧
    ingestTexture "albedo".data "Foo.png".data "/ingest".data
        ⟨none, some ["foo.a.dds".data]⟩ (fun _ => true) =
      some "/ingest/foo.a.dds".data ∧
    (normalizeIngestOutputStem "foo.a.dds".data).1 ≠
      originalBaseOf "Foo.png".data := by
  refine ⟨by decide, by decide, by decide, by decide⟩

/-- C3 amended: for `RemixAPIClient.ingest_texture`, every returned path
passed the on-disk existence check and is the resolution (against the
target ingest directory when relative) of a response output path that ends
in `.dds` and whose stem — after stripping `.dds`, a `.rtex` marker and an
optional single-letter channel suffix — equals the input file's stem
case-insensitively.  (core.py's `ingest_texture_to_remix` performs none of
these checks, per the counterexample.) -/
theorem ingest_texture_result_properties (pbr inputFile targetDir : List Char)
    (resp : IngestResponse) (isFile : List Char → Bool) (fp : List Char)
    (h : ingestTexture pbr inputFile targetDir resp isFile = some fp) :
    isFile fp = true ∧
    ∃ p, p ∈ collectOutputPaths resp ∧ isDdsPath p = true ∧
      eqCI (normalizeIngestOutputStem p).1 (originalBaseOf inputFile) = true ∧
      fp = resolveIngestOutput targetDir p := by
  unfold ingestTexture at h
  cases hsel : selectIngestedPath (expectedSuffix pbr) (originalBaseOf inputFile)
      (collectOutputPaths resp) none with
  | none =>
    rw [hsel] at h
    exact absurd h (by simp)
  | some p =>
    rw [hsel] at h
    have h2 : (if isFile (resolveIngestOutput targetDir p) then
        some (resolveIngestOutput targetDir p) else none) = some fp := h
    by_cases hf : isFile (resolveIngestOutput targetDir p)
    · rw [if_pos hf] at h2
      rcases h2 with ⟨rfl⟩
      rcases selectIngestedPath_spec (expectedSuffix pbr)
          (originalBaseOf inputFile) (collectOutputPaths resp) none p hsel with
        hin | hfb
      · exact ⟨hf, p, hin.1, hin.2.1, hin.2.2, rfl⟩
      · exact absurd hfb (by simp)
    · rw [if_neg hf] at h2
      exact absurd h2 (by simp)

/-- Witness for C3 amended: the spec's round trip — ingesting `foo.png` as
type `normal` yields `/ingest/foo.n.rtex.dds`, an existing file whose stem
after stripping `.rtex.dds` and the `.n` suffix is `foo`. -/
theorem ingest_texture_result_properties_witness :
    (fun l => decide (l = "/ingest/foo.n.rtex.dds".data))
        "/ingest/foo.n.rtex.dds".data = true ∧
    (∃ p, p ∈ collectOutputPaths
        ⟨some [⟨⟨"TextureImporter".data, []⟩,
          [⟨"ConvertToDDS".data,
            [⟨"ingestion_output".data, ["foo.n.rtex.dds".data]⟩]⟩]⟩], none⟩ ∧
      isDdsPath p = true ∧
      eqCI (normalizeIngestOutputStem p).1 (originalBaseOf "foo.png".data) = true ∧
      "/ingest/foo.n.rtex.dds".data =
        resolveIngestOutput "/ingest".data p) ∧
    (normalizeIngestOutputStem "foo.n.rtex.dds".data).1 = "foo".data := by
  have h0 : ingestTexture "normal".data "foo.png".data "/ingest".data
      ⟨some [⟨⟨"TextureImporter".data, []⟩,
        [⟨"ConvertToDDS".data,
          [⟨"ingestion_output".data, ["foo.n.rtex.dds".data]⟩]⟩]⟩], none⟩
      (fun l => decide (l = "/ingest/foo.n.rtex.dds".data)) =
      some "/ingest/foo.n.rtex.dds".data := by decide
  have h := ingest_texture_result_properties "normal".data "foo.png".data
    "/ingest".data
    ⟨some [⟨⟨"TextureImporter".data, []⟩,
      [⟨"ConvertToDDS".data,
        [⟨"ingestion_output".data, ["foo.n.rtex.dds".data]⟩]⟩]⟩], none⟩
    (fun l => decide (l = "/ingest/foo.n.rtex.dds".data))
    "/ingest/foo.n.rtex.dds".data h0
  exact ⟨h.1, h.2, by decide⟩

/-! ## C2 — relative mesh-path resolution on pull -/

/-- C2 counterexample: with NO context available the pull does not fail —
the relative mesh path is resolved against the fabricated fallback root
`{projectRoot}/deps/captures`; and when a context IS present but the
context-joined path does not exist on disk, the same fallback root is used
instead of reporting an error, so the resolution is not exclusive to the
context directory. -/
theorem pull_resolution_claim_counterexample :
    resolveMeshPath "relative/mesh.usd".data none (some "/proj/assets/out".data)
        (fun l => decide (l = "/proj/deps/captures/relative/mesh.usd".data)) =
      some "/proj/deps/captures/relative/mesh.usd".data ∧
    resolveMeshPath "relative/mesh.usd".data (some "/abs/ctx.usd".data)
        (some "/proj/assets/out".data)
        (fun l => decide (l = "/proj/deps/captures/relative/mesh.usd".data)) =
      some "/proj/deps/captures/relative/mesh.usd".data := by
  refine ⟨by decide, by decide⟩

/-- C2 amended: the shader selection still yields material `/World/Looks/M1`
and the file-paths parser still yields `relative/mesh.usd` with context
`/abs/ctx.usd`; a relative mesh path is joined against the context's
directory FIRST and that resolution wins whenever the joined file exists
(giving `/abs/relative/mesh.usd` in the spec's scenario); but when the
context is missing or its joined path does not exist, the resolver falls
back to the project-derived roots (`{root}/deps/captures`, root, base,
output dir) — any successful resolution is an existing file obtained either
from the context join or from one of those fallback roots, and the pull
fails when no context is available only if the default-directory query
fails or no fallback candidate exists. -/
theorem pull_resolution_amended :
    (classifySelection ["/World/Looks/M1/Shader".data]).material? =
        some "/World/Looks/M1".data ∧
    coreFindMeshFilePath
        [PathsEntry.pair "/abs/ctx.usd".data ["relative/mesh.usd".data]] =
      some ("relative/mesh.usd".data, some "/abs/ctx.usd".data) ∧
    (∀ od isFile, isFile "/abs/relative/mesh.usd".data = true →
      resolveMeshPath "relative/mesh.usd".data (some "/abs/ctx.usd".data) od
          isFile = some "/abs/relative/mesh.usd".data) ∧
    (∀ mesh ctx od isFile, isAbsL mesh = false → isAbsL ctx = true →
      isFile (normpathL (joinL (dirnameL ctx) mesh)) = true →
      resolveMeshPath mesh (some ctx) od isFile =
        some (normpathL (joinL (dirnameL ctx) mesh))) ∧
    (∀ mesh ctxOpt od isFile p, isAbsL mesh = false →
      resolveMeshPath mesh ctxOpt (some od) isFile = some p →
      isFile p = true ∧
      ((∃ c, ctxOpt = some c ∧ p = normpathL (joinL (dirnameL c) mesh)) ∨
        (∃ b, b ∈ pullFallbackBases od ∧ p = normpathL (joinL b mesh)))) ∧
    (∀ mesh isFile, isAbsL mesh = false →
      resolveMeshPath mesh none none isFile = none) := by
  have hctx : ∀ (mesh ctx : List Char) (od : Option (List Char))
      (isFile : List Char → Bool), isAbsL mesh = false → isAbsL ctx = true →
      isFile (normpathL (joinL (dirnameL ctx) mesh)) = true →
      resolveMeshPath mesh (some ctx) od isFile =
        some (normpathL (joinL (dirnameL ctx) mesh)) := by
    intro mesh ctx od isFile hm hc hf
    simp [resolveMeshPath, hm, hc, hf]
  refine ⟨by decide, by decide, ?_, hctx, ?_, ?_⟩
  · intro od isFile hf
    have h := hctx "relative/mesh.usd".data "/abs/ctx.usd".data od isFile
      (by decide) (by decide)
    have heq : normpathL (joinL (dirnameL "/abs/ctx.usd".data)
        "relative/mesh.usd".data) = "/abs/relative/mesh.usd".data := by decide
    rw [heq] at h
    exact h hf
  · intro mesh ctxOpt od isFile p hm hres
    simp only [resolveMeshPath, hm] at hres
    rcases ctxOpt with _ | c
    · have hres2 : ((pullFallbackBases od).find?
          (fun b => isFile (normpathL (joinL b mesh)))).map
          (fun b => normpathL (joinL b mesh)) = some p := hres
      rcases hfind : (pullFallbackBases od).find?
          (fun b => isFile (normpathL (joinL b mesh))) with _ | b
      · rw [hfind] at hres2; simp at hres2
      · rw [hfind] at hres2
        simp only [Option.map_some'] at hres2
        rcases hres2 with ⟨rfl⟩
        have hp := List.find?_some hfind
        exact ⟨by simpa using hp,
          Or.inr ⟨b, List.mem_of_find?_eq_some hfind, rfl⟩⟩
    · have hres2 : (match (if isAbsL c then
          (if isFile (normpathL (joinL (dirnameL c) mesh)) then
            some (normpathL (joinL (dirnameL c) mesh)) else none)
          else none : Option (List Char)) with
        | some q => some q
        | none => ((pullFallbackBases od).find?
            (fun b => isFile (normpathL (joinL b mesh)))).map
            (fun b => normpathL (joinL b mesh))) = some p := hres
      by_cases hc : isAbsL c
      · by_cases hf : isFile (normpathL (joinL (dirnameL c) mesh))
        · rw [if_pos hc, if_pos hf] at hres2
          have hres3 : some (normpathL (joinL (dirnameL c) mesh)) = some p := hres2
          rcases hres3 with ⟨rfl⟩
          exact ⟨hf, Or.inl ⟨c, rfl, rfl⟩⟩
        · rw [if_pos hc, if_neg hf] at hres2
          have hres3 : ((pullFallbackBases od).find?
              (fun b => isFile (normpathL (joinL b mesh)))).map
              (fun b => normpathL (joinL b mesh)) = some p := hres2
          rcases hfind : (pullFallbackBases od).find?
              (fun b => isFile (normpathL (joinL b mesh))) with _ | b
          · rw [hfind] at hres3; simp at hres3
          · rw [hfind] at hres3
            simp only [Option.map_some'] at hres3
            rcases hres3 with ⟨rfl⟩
            have hp := List.find?_some hfind
            exact ⟨by simpa using hp,
              Or.inr ⟨b, List.mem_of_find?_eq_some hfind, rfl⟩⟩
      · rw [if_neg hc] at hres2
        have hres3 : ((pullFallbackBases od).find?
            (fun b => isFile (normpathL (joinL b mesh)))).map
            (fun b => normpathL (joinL b mesh)) = some p := hres2
        rcases hfind : (pullFallbackBases od).find?
            (fun b => isFile (normpathL (joinL b mesh))) with _ | b
        · rw [hfind] at hres3; simp at hres3
        · rw [hfind] at hres3
          simp only [Option.map_some'] at hres3
          rcases hres3 with ⟨rfl⟩
          have hp := List.find?_some hfind
          exact ⟨by simpa using hp,
            Or.inr ⟨b, List.mem_of_find?_eq_some hfind, rfl⟩⟩
  · intro mesh isFile hm
    simp [resolveMeshPath, hm]

/-! ## C6 — helper lemmas for the definition-path theorems -/

/-- A list is a Boolean prefix of itself followed by anything. -/
theorem isPrefixOf_append_self (a b : List Char) :
    a.isPrefixOf (a ++ b) = true := by
  induction a with
  | nil => simp [List.isPrefixOf]
  | cons c cs ih => simp [List.isPrefixOf, ih]

/-- `takeWhile` consumes exactly a leading all-true block when the next
block contributes nothing. -/
theorem takeWhile_append_all {p : Char → Bool} :
    ∀ (a b : List Char), a.all p = true → b.takeWhile p = [] →
      (a ++ b).takeWhile p = a
  | [], b, _, hb => by simpa using hb
  | c :: cs, b, ha, hb => by
    have hca : p c = true ∧ cs.all p = true := by
      simpa [List.all_cons, Bool.and_eq_true] using ha
    simp [List.takeWhile_cons, hca.1, takeWhile_append_all cs b hca.2 hb]

/-- `dropWhile` drops exactly a leading all-true block when the next block
contributes nothing. -/
theorem dropWhile_append_all {p : Char → Bool} :
    ∀ (a b : List Char), a.all p = true → b.takeWhile p = [] →
      (a ++ b).dropWhile p = b
  | [], b, _, hb => by
    cases b with
    | nil => rfl
    | cons c t =>
      by_cases hc : p c
      · simp [List.takeWhile_cons, hc] at hb
      · simp [List.dropWhile_cons, hc]
  | c :: cs, b, ha, hb => by
    have hca : p c = true ∧ cs.all p = true := by
      simpa [List.all_cons, Bool.and_eq_true] using ha
    simp [List.dropWhile_cons, hca.1, dropWhile_append_all cs b hca.2 hb]

/-- A list that is empty or starts with `/` satisfies `optSlashEnd`. -/
theorem optSlashEnd_of_shape :
    ∀ (sub : List Char), sub = [] ∨ sub.head? = some '/' →
      optSlashEnd sub = true := by
  intro sub h
  rcases h with rfl | h
  · rfl
  · cases sub with
    | nil => simp at h
    | cons c t =>
      simp only [List.head?_cons, Option.some.injEq] at h
      simp [optSlashEnd, h]

/-- A list that is empty or starts with `/` has no leading digits. -/
theorem takeWhile_isDig_nil_of_shape :
    ∀ (sub : List Char), sub = [] ∨ sub.head? = some '/' →
      sub.takeWhile isDig = [] := by
  intro sub h
  rcases h with rfl | h
  · rfl
  · cases sub with
    | nil => rfl
    | cons c t =>
      simp only [List.head?_cons, Option.some.injEq] at h
      subst h
      simp [List.takeWhile_cons, isDig]

/-- `slashify` is the identity on backslash-free lists. -/
theorem slashify_eq_self : ∀ (l : List Char), '\\' ∉ l → slashify l = l
  | [], _ => rfl
  | c :: t, h => by
    have hc : ¬ c = '\\' := fun hh => h (hh ▸ List.mem_cons_self c t)
    simp [slashify] at slashify_eq_self ⊢
    exact ⟨by simp [hc], slashify_eq_self t (fun hm => h (List.mem_cons_of_mem c hm))⟩

/-- Upper-alphanumeric characters are not backslashes. -/
theorem not_backslash_of_upperAlnum {id : List Char}
    (h : id.all isUpperAlnum = true) : '\\' ∉ id := by
  intro hm
  exact absurd (List.all_eq_true.mp h _ hm) (by decide)

/-- Digits are not backslashes. -/
theorem not_backslash_of_digits {ds : List Char}
    (h : ds.all isDig = true) : '\\' ∉ ds := by
  intro hm
  exact absurd (List.all_eq_true.mp h _ hm) (by decide)

/-- Lifting a greedy-scan match over a prefixed base. -/
theorem greedyScan_append {α : Type} (m : List Char → Option α)
    (p : List Char) (a : α) :
    ∀ (base rest : List Char), greedyScan m rest = some (p, a) →
      greedyScan m (base ++ rest) = some (base ++ p, a)
  | [], rest, h => by simpa using h
  | c :: bs, rest, h => by
    simp [greedyScan, greedyScan_append m p a bs rest h]

/-- A greedy scan that fails on the tail and matches at the head matches
at the head with empty `(.*)` group. -/
theorem greedyScan_start {α : Type} (m : List Char → Option α) (c : Char)
    (t : List Char) (a : α) (hnone : greedyScan m t = none)
    (hm : m (c :: t) = some a) :
    greedyScan m (c :: t) = some ([], a) := by
  simp [greedyScan, hnone, hm]

/-- Evaluation of core.py's instance acceptor at a well-formed suffix. -/
theorem coreInstMatch_at (id rest : List Char) (hlen : id.length = 16)
    (hid : id.all isUpperAlnum = true) (hrest : coreInstRestOk rest = true) :
    coreInstMatch (instMarker ++ (id ++ rest)) = some id := by
  have hpre := isPrefixOf_append_self instMarker (id ++ rest)
  have hdrop : (instMarker ++ (id ++ rest)).drop instMarker.length = id ++ rest :=
    List.drop_left _ _
  have htake : (id ++ rest).take 16 = id := by
    rw [← hlen]; exact List.take_left _ _
  have hdrop2 : (id ++ rest).drop 16 = rest := by
    rw [← hlen]; exact List.drop_left _ _
  simp only [coreInstMatch, hpre, if_true, hdrop, htake, hdrop2]
  simp [hlen, hid, hrest]

/-- Evaluation of remix_api.py's instance acceptor when no numeric suffix
follows the 16-character id. -/
theorem remixInstMatch_at_plain (id sub : List Char) (hlen : id.length = 16)
    (hid : id.all isUpperAlnum = true)
    (hsub : sub = [] ∨ sub.head? = some '/') :
    remixInstMatch (instMarker ++ (id ++ sub)) = some id := by
  have hpre := isPrefixOf_append_self instMarker (id ++ sub)
  have hdrop : (instMarker ++ (id ++ sub)).drop instMarker.length = id ++ sub :=
    List.drop_left _ _
  have htake : (id ++ sub).take 16 = id := by
    rw [← hlen]; exact List.take_left _ _
  have hdrop2 : (id ++ sub).drop 16 = sub := by
    rw [← hlen]; exact List.drop_left _ _
  have hhead : ¬ sub.head? = some '_' := by
    rcases hsub with rfl | h
    · simp
    · rw [h]; simp
  simp only [remixInstMatch, hpre, if_true, hdrop, htake, hdrop2]
  simp [hlen, hid, hhead, optSlashEnd_of_shape sub hsub]

/-- Evaluation of remix_api.py's instance acceptor when one numeric suffix
follows the id: the suffix is part of the captured group. -/
theorem remixInstMatch_at_suffix (id ds sub : List Char) (hlen : id.length = 16)
    (hid : id.all isUpperAlnum = true) (hds : ds ≠ [])
    (hdig : ds.all isDig = true)
    (hsub : sub = [] ∨ sub.head? = some '/') :
    remixInstMatch (instMarker ++ (id ++ ('_' :: (ds ++ sub)))) =
      some (id ++ '_' :: ds) := by
  have hpre := isPrefixOf_append_self instMarker (id ++ ('_' :: (ds ++ sub)))
  have hdrop : (instMarker ++ (id ++ ('_' :: (ds ++ sub)))).drop
      instMarker.length = id ++ ('_' :: (ds ++ sub)) := List.drop_left _ _
  have htake : (id ++ ('_' :: (ds ++ sub))).take 16 = id := by
    rw [← hlen]; exact List.take_left _ _
  have hdrop2 : (id ++ ('_' :: (ds ++ sub))).drop 16 = '_' :: (ds ++ sub) := by
    rw [← hlen]; exact List.drop_left _ _
  have htw : (ds ++ sub).takeWhile isDig = ds :=
    takeWhile_append_all ds sub hdig (takeWhile_isDig_nil_of_shape sub hsub)
  have hdw : (ds ++ sub).dropWhile isDig = sub :=
    dropWhile_append_all ds sub hdig (takeWhile_isDig_nil_of_shape sub hsub)
  simp only [remixInstMatch, hpre, if_true, hdrop, htake, hdrop2,
    List.tail_cons, List.head?_cons, htw, hdw]
  simp [hlen, hid, hds, optSlashEnd_of_shape sub hsub]

/-- Evaluation of core.py's rest acceptor on a bare subpath. -/
theorem coreInstRestOk_plain (sub : List Char)
    (hsub : sub = [] ∨ sub.head? = some '/') : coreInstRestOk sub = true := by
  simp [coreInstRestOk, optSlashEnd_of_shape sub hsub]

/-- Evaluation of core.py's rest acceptor on `_<digits>` plus subpath. -/
theorem coreInstRestOk_suffix (ds sub : List Char) (hds : ds ≠ [])
    (hdig : ds.all isDig = true)
    (hsub : sub = [] ∨ sub.head? = some '/') :
    coreInstRestOk ('_' :: (ds ++ sub)) = true := by
  have htw : (ds ++ sub).takeWhile isDig = ds :=
    takeWhile_append_all ds sub hdig (takeWhile_isDig_nil_of_shape sub hsub)
  have hdw : (ds ++ sub).dropWhile isDig = sub :=
    dropWhile_append_all ds sub hdig (takeWhile_isDig_nil_of_shape sub hsub)
  simp [coreInstRestOk, optSlashEnd, htw, hdw, hds]
  have hos := optSlashEnd_of_shape sub hsub
  simpa [optSlashEnd] using hos

/-- A backslash-free tail of the form `id ++ sub`. -/
theorem not_backslash_tail_plain {id sub : List Char}
    (hid : id.all isUpperAlnum = true) (hbs : '\\' ∉ sub) :
    '\\' ∉ id ++ sub := by
  intro hm
  rcases List.mem_append.mp hm with hm | hm
  · exact not_backslash_of_upperAlnum hid hm
  · exact hbs hm

/-- A backslash-free tail of the form `id ++ ('_' :: (ds ++ sub))`. -/
theorem not_backslash_tail_suffix {id ds sub : List Char}
    (hid : id.all isUpperAlnum = true) (hdig : ds.all isDig = true)
    (hbs : '\\' ∉ sub) : '\\' ∉ id ++ ('_' :: (ds ++ sub)) := by
  intro hm
  rcases List.mem_append.mp hm with hm | hm
  · exact not_backslash_of_upperAlnum hid hm
  · rcases List.mem_cons.mp hm with he | hm
    · exact absurd he (by decide)
    · rcases List.mem_append.mp hm with hm | hm
      · exact not_backslash_of_digits hdig hm
      · exact hbs hm

/-- Assembly for core.py: a head acceptance at the marker with no later
acceptance inside the tail determines the whole extraction. -/
theorem coreExtract_instance (base tail id : List Char)
    (hmm : coreInstMatch (instMarker ++ tail) = some id)
    (hbb : '\\' ∉ base) (hbt : '\\' ∉ tail)
    (hgreedy : greedyScan coreInstMatch ("instances/inst_".data ++ tail) = none) :
    coreExtractDefinitionPath (base ++ (instMarker ++ tail)) =
      some (base ++ "/meshes/mesh_".data ++ id) := by
  have hmarker : instMarker = '/' :: "instances/inst_".data := by decide
  have hstart : greedyScan coreInstMatch (instMarker ++ tail) = some ([], id) := by
    rw [hmarker, List.cons_append]
    refine greedyScan_start _ _ _ _ hgreedy ?_
    rw [← List.cons_append, ← hmarker]
    exact hmm
  have hscan : greedyScan coreInstMatch (base ++ (instMarker ++ tail)) =
      some (base, id) := by
    have h := greedyScan_append coreInstMatch [] id base (instMarker ++ tail)
      hstart
    simpa using h
  have hne : base ++ (instMarker ++ tail) ≠ [] := by
    intro h
    rcases List.append_eq_nil.mp h with ⟨_, h2⟩
    rcases List.append_eq_nil.mp h2 with ⟨h3, _⟩
    exact absurd h3 (by decide)
  have hnb : '\\' ∉ base ++ (instMarker ++ tail) := by
    intro hm
    rcases List.mem_append.mp hm with hm | hm
    · exact hbb hm
    rcases List.mem_append.mp hm with hm | hm
    · exact absurd hm (by decide)
    · exact hbt hm
  have hslash := slashify_eq_self _ hnb
  simp only [coreExtractDefinitionPath, hne, hslash, hscan, if_neg, ite_false]

/-- Assembly for remix_api.py: as `coreExtract_instance`, with the captured
group possibly containing the numeric suffix. -/
theorem remixExtract_instance (base tail grp : List Char)
    (hmm : remixInstMatch (instMarker ++ tail) = some grp)
    (hbb : '\\' ∉ base) (hbt : '\\' ∉ tail)
    (hgreedy : greedyScan remixInstMatch ("instances/inst_".data ++ tail) = none) :
    remixExtractDefinitionPath (base ++ (instMarker ++ tail)) =
      some (base ++ "/meshes/mesh_".data ++ grp) := by
  have hmarker : instMarker = '/' :: "instances/inst_".data := by decide
  have hstart : greedyScan remixInstMatch (instMarker ++ tail) =
      some ([], grp) := by
    rw [hmarker, List.cons_append]
    refine greedyScan_start _ _ _ _ hgreedy ?_
    rw [← List.cons_append, ← hmarker]
    exact hmm
  have hscan : greedyScan remixInstMatch (base ++ (instMarker ++ tail)) =
      some (base, grp) := by
    have h := greedyScan_append remixInstMatch [] grp base (instMarker ++ tail)
      hstart
    simpa using h
  have hne : base ++ (instMarker ++ tail) ≠ [] := by
    intro h
    rcases List.append_eq_nil.mp h with ⟨_, h2⟩
    rcases List.append_eq_nil.mp h2 with ⟨h3, _⟩
    exact absurd h3 (by decide)
  have hnb : '\\' ∉ base ++ (instMarker ++ tail) := by
    intro hm
    rcases List.mem_append.mp hm with hm | hm
    · exact hbb hm
    rcases List.mem_append.mp hm with hm | hm
    · exact absurd hm (by decide)
    · exact hbt hm
  have hslash := slashify_eq_self _ hnb
  simp only [remixExtractDefinitionPath, hne, hslash, hscan, if_neg, ite_false]

/-! ## C6 — definition-path derivation theorems -/

/-- C6 counterexample: on the instance path with a numeric `_5` suffix,
remix_api.py's `_extract_definition_path` keeps the suffix inside the
derived id — it returns `.../meshes/mesh_ABCDEF0123456789_5`, not the
`.../meshes/mesh_ABCDEF0123456789` the claim requires. -/
theorem extract_definition_path_claim_counterexample :
    remixExtractDefinitionPath
        "/a/instances/inst_ABCDEF0123456789_5/mesh".data =
      some "/a/meshes/mesh_ABCDEF0123456789_5".data ∧
    some "/a/meshes/mesh_ABCDEF0123456789_5".data ≠
      some "/a/meshes/mesh_ABCDEF0123456789".data := by
  refine ⟨by decide, by decide⟩

/-- C6 amended: core.py's `_extract_definition_path` rewrites
`{base}/instances/inst_{ID}` — with an optional numeric `_n` suffix and/or
a further subpath — to `{base}/meshes/mesh_{ID}`, stripping the numeric
suffix; remix_api.py's version produces the same result when no numeric
suffix is present but RETAINS the suffix (`{base}/meshes/mesh_{ID}_n`) when
one is.  The `greedyScan … = none` hypotheses state that the literal
`/instances/inst_` does not recur acceptably later in the path, pinning the
greedy `(.*)` group, and the backslash conditions make the code's
`replace('\\', '/')` a no-op. -/
theorem extract_definition_path_amended :
    (∀ base id sub, id.length = 16 → id.all isUpperAlnum = true →
      (sub = [] ∨ sub.head? = some '/') → '\\' ∉ base → '\\' ∉ sub →
      greedyScan coreInstMatch ("instances/inst_".data ++ (id ++ sub)) = none →
      coreExtractDefinitionPath (base ++ (instMarker ++ (id ++ sub))) =
        some (base ++ "/meshes/mesh_".data ++ id)) ∧
    (∀ base id ds sub, id.length = 16 → id.all isUpperAlnum = true →
      ds ≠ [] → ds.all isDig = true → (sub = [] ∨ sub.head? = some '/') →
      '\\' ∉ base → '\\' ∉ sub →
      greedyScan coreInstMatch
        ("instances/inst_".data ++ (id ++ ('_' :: (ds ++ sub)))) = none →
      coreExtractDefinitionPath
        (base ++ (instMarker ++ (id ++ ('_' :: (ds ++ sub))))) =
        some (base ++ "/meshes/mesh_".data ++ id)) ∧
    (∀ base id sub, id.length = 16 → id.all isUpperAlnum = true →
      (sub = [] ∨ sub.head? = some '/') → '\\' ∉ base → '\\' ∉ sub →
      greedyScan remixInstMatch ("instances/inst_".data ++ (id ++ sub)) = none →
      remixExtractDefinitionPath (base ++ (instMarker ++ (id ++ sub))) =
        some (base ++ "/meshes/mesh_".data ++ id)) ∧
    (∀ base id ds sub, id.length = 16 → id.all isUpperAlnum = true →
      ds ≠ [] → ds.all isDig = true → (sub = [] ∨ sub.head? = some '/') →
      '\\' ∉ base → '\\' ∉ sub →
      greedyScan remixInstMatch
        ("instances/inst_".data ++ (id ++ ('_' :: (ds ++ sub)))) = none →
      remixExtractDefinitionPath
        (base ++ (instMarker ++ (id ++ ('_' :: (ds ++ sub))))) =
        some (base ++ "/meshes/mesh_".data ++ (id ++ '_' :: ds))) := by
  refine ⟨?_, ?_, ?_, ?_⟩
  · intro base id sub hlen hid hsub hbb hbs hgreedy
    exact coreExtract_instance base (id ++ sub) id
      (coreInstMatch_at id sub hlen hid (coreInstRestOk_plain sub hsub))
      hbb (not_backslash_tail_plain hid hbs) hgreedy
  · intro base id ds sub hlen hid hds hdig hsub hbb hbs hgreedy
    exact coreExtract_instance base (id ++ ('_' :: (ds ++ sub))) id
      (coreInstMatch_at id ('_' :: (ds ++ sub)) hlen hid
        (coreInstRestOk_suffix ds sub hds hdig hsub))
      hbb (not_backslash_tail_suffix hid hdig hbs) hgreedy
  · intro base id sub hlen hid hsub hbb hbs hgreedy
    exact remixExtract_instance base (id ++ sub) id
      (remixInstMatch_at_plain id sub hlen hid hsub)
      hbb (not_backslash_tail_plain hid hbs) hgreedy
  · intro base id ds sub hlen hid hds hdig hsub hbb hbs hgreedy
    exact remixExtract_instance base (id ++ ('_' :: (ds ++ sub)))
      (id ++ '_' :: ds)
      (remixInstMatch_at_suffix id ds sub hlen hid hds hdig hsub)
      hbb (not_backslash_tail_suffix hid hdig hbs) hgreedy

/-- Witness for C6 amended: the spec's example path, plus the suffixed
variant showing remix_api.py retaining the suffix. -/
theorem extract_definition_path_amended_witness :
    coreExtractDefinitionPath
        ("/a".data ++ (instMarker ++ ("ABCDEF0123456789".data ++ "/mesh".data))) =
      some ("/a".data ++ "/meshes/mesh_".data ++ "ABCDEF0123456789".data) ∧
    remixExtractDefinitionPath
        ("/a".data ++ (instMarker ++ ("ABCDEF0123456789".data ++ "/mesh".data))) =
      some ("/a".data ++ "/meshes/mesh_".data ++ "ABCDEF0123456789".data) ∧
    remixExtractDefinitionPath
        ("/a".data ++ (instMarker ++ ("ABCDEF0123456789".data ++
          ('_' :: ("5".data ++ "/mesh".data))))) =
      some ("/a".data ++ "/meshes/mesh_".data ++
        ("ABCDEF0123456789".data ++ '_' :: "5".data)) := by
  refine ⟨?_, ?_, ?_⟩
  · exact extract_definition_path_amended.1 "/a".data "ABCDEF0123456789".data
      "/mesh".data (by decide) (by decide) (Or.inr (by decide)) (by decide)
      (by decide) (by decide)
  · exact extract_definition_path_amended.2.2.1 "/a".data
      "ABCDEF0123456789".data "/mesh".data (by decide) (by decide)
      (Or.inr (by decide)) (by decide) (by decide) (by decide)
  · exact extract_definition_path_amended.2.2.2 "/a".data
      "ABCDEF0123456789".data "5".data "/mesh".data (by decide) (by decide)
      (by decide) (by decide) (Or.inr (by decide)) (by decide) (by decide)
      (by decide)

/-- Witness for C2 amended: the spec scenario with an existence oracle that
contains exactly `/abs/relative/mesh.usd`. -/
theorem pull_resolution_amended_witness :
    resolveMeshPath "relative/mesh.usd".data (some "/abs/ctx.usd".data)
        (some "/proj/assets/out".data)
        (fun l => decide (l = "/abs/relative/mesh.usd".data)) =
      some "/abs/relative/mesh.usd".data := by
  exact pull_resolution_amended.2.2.1 (some "/proj/assets/out".data)
    (fun l => decide (l = "/abs/relative/mesh.usd".data)) (by decide)

end S2R
